import Mathlib

/-!
Shallow embedding of the account-management core of the `smartalgov1`
repository (`src/actions/user.actions.ts`, `src/modals/user.modal.ts`,
`src/app/api/webhooks/clerk/route.ts`, `src/actions/stripe.actions.ts`).

The persistent store is modelled as a list of account documents; each
server action becomes a pure function from a store to an
`Except Err (result × store)`; a thrown JS `Error` with message `m`
becomes `.error (.msg m)`, and a MongoDB duplicate-key error (code 11000)
on the unique index of field `f` becomes `.error (.dupKey f)`.  Per the
spec's storage-interface contract (§6 and the glossary's definition of
sparse uniqueness), uniqueness constraints on `usernameLower` and
`solanaWallet` ignore absent/empty values, and per-document atomic
conditional updates are single functions on the store.  JS numbers that
the code treats as integer credit amounts are modelled as `Int`; event
timestamps as `Nat`.
-/

namespace Seek

/-- An ASCII whitespace character (the whitespace the inputs at hand can
contain; JS `trim` additionally strips exotic Unicode spaces). -/
def isSpaceChar (c : Char) : Bool :=
  c == ' ' || c == '\t' || c == '\n' || c == '\r'

/-- JS `String.prototype.trim`. -/
def jsTrim (s : String) : String :=
  String.mk (((s.data.dropWhile isSpaceChar).reverse.dropWhile isSpaceChar).reverse)

/-- Lower-case one ASCII letter. -/
def lowerChar (c : Char) : Char :=
  if 'A' ≤ c && c ≤ 'Z' then Char.ofNat (c.toNat + 32) else c

/-- JS `String.prototype.toLowerCase` on the ASCII alphabet. -/
def jsLower (s : String) : String :=
  String.mk (s.data.map lowerChar)

/-- One entry of `creditHistory` (`CreditHistorySchema` in `user.modal.ts`). -/
structure CreditHistoryEntry where
  coin : String
  strategy : String
  creditsUsed : Int
  timestamp : Nat
deriving Repr, DecidableEq

/-- An account document, restricted to the fields the verified actions
read or write (`UserSchema` in `user.modal.ts`).  `username` and
`usernameLower` are optional (absent until assigned); `solanaWallet`
uses the empty string as the schema's "not connected" default. -/
structure Account where
  clerkId : String
  email : String
  firstName : String
  lastName : String
  username : Option String
  usernameLower : Option String
  subscriptionTier : String
  customerId : String
  credits : Int
  topCoins : List String
  creditHistory : List CreditHistoryEntry
  solanaWallet : String
deriving Repr, DecidableEq

/-- The account collection. -/
abbrev Store := List Account

/-- Errors surfaced by the actions: a thrown `Error` message, or a
MongoDB duplicate-key (E11000) signal naming the violated unique index. -/
inductive Err where
  | msg (text : String)
  | dupKey (field : String)
deriving Repr, DecidableEq

instance {ε α : Type} [DecidableEq ε] [DecidableEq α] : DecidableEq (Except ε α) := fun x y =>
  match x, y with
  | .ok a, .ok b => if h : a = b then isTrue (by rw [h]) else isFalse (by intro hc; cases hc; exact h rfl)
  | .error a, .error b => if h : a = b then isTrue (by rw [h]) else isFalse (by intro hc; cases hc; exact h rfl)
  | .ok _, .error _ => isFalse (by intro hc; cases hc)
  | .error _, .ok _ => isFalse (by intro hc; cases hc)

/-- Replace the first account satisfying `p` with its image under `f`
(the write half of `findOneAndUpdate`). -/
def replaceFirst (p : Account → Bool) (f : Account → Account) : Store → Store
  | [] => []
  | a :: rest => if p a then f a :: rest else a :: replaceFirst p f rest

/-- Well-formedness: `clerkId` is a unique key of the collection. -/
def WF (s : Store) : Prop := (s.map Account.clerkId).Nodup

instance : DecidablePred WF := fun s =>
  inferInstanceAs (Decidable ((s.map Account.clerkId).Nodup))

/-! ### Uniqueness probes

MongoDB raises E11000 when a write would duplicate a unique-indexed value
held by a *different* document; the written document is identified by its
`clerkId` filter, so "different document" is "different `clerkId`" on a
well-formed store. -/

/-- Another account (different `clerkId`) already holds this email. -/
def emailTaken (s : Store) (cid e : String) : Bool :=
  s.any fun b => b.clerkId != cid && b.email == e

/-- Another account (different `clerkId`) already holds this
`usernameLower` value. -/
def usernameTaken (s : Store) (cid lower : String) : Bool :=
  s.any fun b => b.clerkId != cid && b.usernameLower == some lower

/-- Another account (different `clerkId`) already holds this non-empty
wallet address. -/
def walletTaken (s : Store) (cid w : String) : Bool :=
  s.any fun b => b.clerkId != cid && b.solanaWallet == w

/-! ### createUser (`user.actions.ts`) -/

/-- Input for creation (`CreateUserInput`). -/
structure CreateUserInput where
  clerkId : String
  email : String
  firstName : Option String := none
  lastName : Option String := none
  subscriptionTier : Option String := none
  customerId : Option String := none
  credits : Option Int := none
  username : Option String := none
deriving Repr, DecidableEq

/-- `user.email.toLowerCase().trim()`. -/
def normEmail (e : String) : String := jsTrim (jsLower e)

/-- The truthiness test `if (user.username && user.username.trim())`:
the trimmed username, or `none` when absent or blank. -/
def trimmedUsername : Option String → Option String
  | some u => if jsTrim u == "" then none else some (jsTrim u)
  | none => none

/-- The `$set` document of `createUser` applied to an existing account:
always syncs `email`/`firstName`/`lastName`; also sets `username` and
`usernameLower` when a non-blank username was supplied. -/
def applyProfileSet (inp : CreateUserInput) (a : Account) : Account :=
  match trimmedUsername inp.username with
  | some un =>
      { a with email := normEmail inp.email,
               firstName := inp.firstName.getD "",
               lastName := inp.lastName.getD "",
               username := some un,
               usernameLower := some (jsLower un) }
  | none =>
      { a with email := normEmail inp.email,
               firstName := inp.firstName.getD "",
               lastName := inp.lastName.getD "" }

/-- The document inserted by `createUser`'s upsert when no account with
the `clerkId` exists: the `$set` fields, the `$setOnInsert` fields
(`credits: user.credits ?? undefined` letting the schema default 10
apply), and the remaining schema defaults. -/
def freshAccount (inp : CreateUserInput) : Account :=
  { clerkId := inp.clerkId
    email := normEmail inp.email
    firstName := inp.firstName.getD ""
    lastName := inp.lastName.getD ""
    username := trimmedUsername inp.username
    usernameLower := (trimmedUsername inp.username).map jsLower
    subscriptionTier := inp.subscriptionTier.getD "free"
    customerId := inp.customerId.getD ""
    credits := inp.credits.getD 10
    topCoins := []
    creditHistory := []
    solanaWallet := "" }

/-- Did the `$set` document carry a username that another account already
holds case-insensitively? -/
def usernameSetTaken (s : Store) (inp : CreateUserInput) : Bool :=
  match trimmedUsername inp.username with
  | some un => usernameTaken s inp.clerkId (jsLower un)
  | none => false

/-- `createUser`: upsert keyed by `clerkId`; update path applies only the
`$set` profile fields, insert path additionally applies `$setOnInsert`
and schema defaults.  A uniqueness violation on `email` or
`usernameLower` surfaces as a duplicate-key error. -/
def createUser (s : Store) (inp : CreateUserInput) : Except Err (Account × Store) :=
  match s.find? (fun a => a.clerkId == inp.clerkId) with
  | some a =>
      if emailTaken s inp.clerkId (normEmail inp.email) then .error (.dupKey "email")
      else if usernameSetTaken s inp then .error (.dupKey "usernameLower")
      else .ok (applyProfileSet inp a,
                replaceFirst (fun x => x.clerkId == inp.clerkId) (applyProfileSet inp) s)
  | none =>
      if emailTaken s inp.clerkId (normEmail inp.email) then .error (.dupKey "email")
      else if usernameSetTaken s inp then .error (.dupKey "usernameLower")
      else .ok (freshAccount inp, s ++ [freshAccount inp])

/-! ### consumeBacktestCredits -/

/-- The history entry logged by a debit. -/
def consumeEntry (amount : Int) (coin strategy : String) (now : Nat) : CreditHistoryEntry :=
  { coin := coin, strategy := strategy, creditsUsed := amount, timestamp := now }

/-- The conditional filter `{ clerkId: userId, credits: { $gte: amount } }`. -/
def consumePred (uid : String) (amount : Int) (a : Account) : Bool :=
  a.clerkId == uid && decide (amount ≤ a.credits)

/-- The update `{ $inc: { credits: -amount }, $push: { creditHistory:
{ $each: [entry], $position: 0, $slice: 50 } } }`. -/
def consumeUpd (amount : Int) (coin strategy : String) (now : Nat) (a : Account) : Account :=
  { a with credits := a.credits - amount,
           creditHistory := (consumeEntry amount coin strategy now :: a.creditHistory).take 50 }

/-- `consumeBacktestCredits`: rejects non-positive amounts, then runs one
atomic conditional update debiting the account and prepending the entry. -/
def consumeBacktestCredits (s : Store) (uid : String) (amount : Int)
    (coin strategy : String) (now : Nat) : Except Err (Account × Store) :=
  if amount ≤ 0 then .error (.msg "Amount must be > 0")
  else
    match s.find? (consumePred uid amount) with
    | none => .error (.msg "User not found or not enough credits")
    | some a => .ok (consumeUpd amount coin strategy now a,
                     replaceFirst (consumePred uid amount) (consumeUpd amount coin strategy now) s)

/-- `addCredits`: rejects non-positive amounts, then atomically increments. -/
def addCredits (s : Store) (uid : String) (amount : Int) : Except Err (Account × Store) :=
  if amount ≤ 0 then .error (.msg "Amount must be > 0")
  else
    match s.find? (fun a => a.clerkId == uid) with
    | none => .error (.msg "User not found")
    | some a => .ok ({ a with credits := a.credits + amount },
                     replaceFirst (fun x => x.clerkId == uid)
                       (fun x => { x with credits := x.credits + amount }) s)

/-- `updateUserTopCoins`: at most three coins, full replacement. -/
def updateUserTopCoins (s : Store) (uid : String) (coins : List String) :
    Except Err (List String × Store) :=
  if coins.length > 3 then .error (.msg "Only 3 coins can be selected")
  else
    match s.find? (fun a => a.clerkId == uid) with
    | none => .error (.msg "User not found")
    | some _ => .ok (coins, replaceFirst (fun x => x.clerkId == uid)
                       (fun x => { x with topCoins := coins }) s)

/-! ### Username helpers -/

/-- A word character of `/^[a-zA-Z0-9_]{3,20}$/`. -/
def isWordChar (c : Char) : Bool :=
  ('a' ≤ c && c ≤ 'z') || ('A' ≤ c && c ≤ 'Z') || ('0' ≤ c && c ≤ '9') || c == '_'

/-- `USERNAME_RE.test`: 3 to 20 word characters. -/
def usernameOk (s : String) : Bool :=
  decide (3 ≤ s.length) && decide (s.length ≤ 20) && s.toList.all isWordChar

/-- The `RESERVED` denylist. -/
def RESERVED : List String :=
  ["admin", "root", "support", "help", "contact", "about", "api", "app",
   "login", "signup", "settings", "profile", "user", "users", "me",
   "dashboard", "feed", "explore", "news"]

/-- Result shape of `isUsernameAvailable`. -/
structure AvailResult where
  ok : Bool
  reason : Option String
deriving Repr, DecidableEq

/-- `isUsernameAvailable`: read-only validity/availability check.  Its
existence probe `User.exists({ usernameLower: lower })` scans *all*
accounts, the caller's own included. -/
def isUsernameAvailable (s : Store) (desiredRaw : String) : AvailResult :=
  let desired := jsTrim desiredRaw
  if !usernameOk desired then
    ⟨false, some "Username must be 3–20 chars (letters, numbers, underscore)."⟩
  else
    let lower := jsLower desired
    if RESERVED.contains lower then ⟨false, some "That username is reserved."⟩
    else if s.any (fun b => b.usernameLower == some lower) then
      ⟨false, some "That username is taken."⟩
    else ⟨true, none⟩

/-- `setUsername`: format check, reserved-word check, then an atomic
`$set` of both `username` and `usernameLower`; a duplicate-key error from
the `usernameLower`/`username` unique indexes is translated to the
"taken" message. -/
def setUsername (s : Store) (cid desiredRaw : String) : Except Err (Account × Store) :=
  let desired := jsTrim desiredRaw
  if !usernameOk desired then
    .error (.msg "Username must be 3–20 chars (letters, numbers, underscore).")
  else
    let lower := jsLower desired
    if RESERVED.contains lower then .error (.msg "That username is reserved.")
    else
      match s.find? (fun a => a.clerkId == cid) with
      | none => .error (.msg "User not found")
      | some a =>
          if usernameTaken s cid lower then .error (.msg "That username is taken.")
          else .ok ({ a with username := some desired, usernameLower := some lower },
                    replaceFirst (fun x => x.clerkId == cid)
                      (fun x => { x with username := some desired, usernameLower := some lower }) s)

/-! ### Solana wallet helpers -/

/-- A base58 character of `/^[1-9A-HJ-NP-Za-km-z]{43,44}$/` (no `0`,
`O`, `I`, `l`). -/
def isBase58Char (c : Char) : Bool :=
  ('1' ≤ c && c ≤ '9') || ('A' ≤ c && c ≤ 'H') || ('J' ≤ c && c ≤ 'N') ||
  ('P' ≤ c && c ≤ 'Z') || ('a' ≤ c && c ≤ 'k') || ('m' ≤ c && c ≤ 'z')

/-- `isValidSolAddress`: 43 or 44 base58 characters. -/
def isValidSolAddress (addr : String) : Bool :=
  decide (43 ≤ addr.length) && decide (addr.length ≤ 44) && addr.toList.all isBase58Char

/-- `setSolanaWallet`: validates the trimmed address, then atomically
sets it; a duplicate-key error from the sparse unique `solanaWallet`
index (which, per the schema's contract, only non-empty values occupy)
is translated to the "already connected" message. -/
def setSolanaWallet (s : Store) (cid addressRaw : String) : Except Err (Account × Store) :=
  let address := jsTrim addressRaw
  if !isValidSolAddress address then .error (.msg "Invalid Solana address format.")
  else
    match s.find? (fun a => a.clerkId == cid) with
    | none => .error (.msg "User not found")
    | some a =>
        if walletTaken s cid address then
          .error (.msg "That wallet is already connected by another user.")
        else .ok ({ a with solanaWallet := address },
                  replaceFirst (fun x => x.clerkId == cid)
                    (fun x => { x with solanaWallet := address }) s)

/-- `clearSolanaWallet`: sets the field back to the empty string — the
unclaimed sentinel outside the sparse unique index — with no uniqueness
probe of any kind. -/
def clearSolanaWallet (s : Store) (cid : String) : Except Err (Account × Store) :=
  match s.find? (fun a => a.clerkId == cid) with
  | none => .error (.msg "User not found")
  | some a => .ok ({ a with solanaWallet := "" },
                   replaceFirst (fun x => x.clerkId == cid)
                     (fun x => { x with solanaWallet := "" }) s)

/-! ### Clerk webhook handler (`route.ts`, user.created / user.updated) -/

/-- `data.username?.trim() || null`. -/
def handlerUsername : Option String → Option String
  | some u => if jsTrim u == "" then none else some (jsTrim u)
  | none => none

/-- The `basePayload` built by the webhook handler (no username). -/
def clerkBasePayload (clerkId email firstName lastName : String) : CreateUserInput :=
  { clerkId := clerkId, email := email, firstName := some firstName,
    lastName := some lastName, subscriptionTier := some "free",
    customerId := some "", credits := none, username := none }

/-- The catch-guard `e.code === 11000 && (e.keyPattern.usernameLower ||
e.keyPattern.username)`. -/
def usernameDupErr : Err → Bool
  | .dupKey f => f == "usernameLower" || f == "username"
  | .msg _ => false

/-- The `basePayload` extended with the processed payload username
(the `{ ...basePayload, username: maybeUsername }` spread). -/
def clerkPayloadWithUsername (clerkId email firstName lastName : String)
    (mu : Option String) : CreateUserInput :=
  { clerkId := clerkId, email := email, firstName := some firstName,
    lastName := some lastName, subscriptionTier := some "free",
    customerId := some "", credits := none, username := mu }

/-- The `user.created`/`user.updated` branch of the webhook `POST`:
upsert with the payload username; if that fails with a duplicate-key
error on the username indexes, retry the upsert with username omitted;
any other failure propagates. -/
def handleIdentityUpsert (s : Store) (clerkId email firstName lastName : String)
    (username : Option String) : Except Err (Account × Store) :=
  match createUser s (clerkPayloadWithUsername clerkId email firstName lastName
      (handlerUsername username)) with
  | .ok r => .ok r
  | .error e =>
      if usernameDupErr e then createUser s (clerkBasePayload clerkId email firstName lastName)
      else .error e

/-! ### Stripe subscribe (`stripe.actions.ts`) -/

/-- External calls made by `subscribe`, in execution order. -/
inductive StripeEffect where
  | listCustomers (email : String)
  | createCustomer (email : String)
  | dbUpsertCustomer (userId customerId : String)
  | retrievePrice (priceId : String)
  | createSession (customerId priceId userId : String)
deriving Repr, DecidableEq

/-- The external Stripe world: customer directory, price catalogue,
session factory. -/
structure StripeEnv where
  existingCustomer : String → Option String
  newCustomerId : String → String
  priceValid : String → Bool
  sessionUrl : String → String

/-- The customer id `subscribe` ends up with: the first customer listed
for the email, else a freshly created one. -/
def resolveCustomer (env : StripeEnv) (email : String) : String :=
  match env.existingCustomer email with
  | some c => c
  | none => env.newCustomerId email

/-- The document inserted by `subscribe`'s
`findOneAndUpdate({ clerkId: userId }, { customerId }, { upsert: true })`
when the account is absent: the `clerkId` from the filter, the
`customerId` from the update, and schema defaults for the rest — no
email or profile fields (the absent required `email` is modelled as the
empty string). -/
def stripeFreshAccount (userId cid : String) : Account :=
  { clerkId := userId, email := "", firstName := "", lastName := "",
    username := none, usernameLower := none, subscriptionTier := "free",
    customerId := cid, credits := 10, topCoins := [], creditHistory := [],
    solanaWallet := "" }

/-- The `customerId` write of `subscribe`: update when the account
exists, insert-with-defaults when it does not. -/
def stripeUpsertCustomer (s : Store) (userId cid : String) : Account × Store :=
  match s.find? (fun a => a.clerkId == userId) with
  | some a => ({ a with customerId := cid },
               replaceFirst (fun x => x.clerkId == userId)
                 (fun x => { x with customerId := cid }) s)
  | none => (stripeFreshAccount userId cid, s ++ [stripeFreshAccount userId cid])

/-- `subscribe`: parameter guard, customer lookup/creation, `customerId`
persisted onto the account, price validation, then checkout-session
creation.  Returns the result, the final store, and the ordered trace of
external calls.  Errors thrown inside the `try` are wrapped by the outer
catch into "Failed to create subscription: …". -/
def subscribe (env : StripeEnv) (s : Store) (userId email priceId : String) :
    Except Err String × Store × List StripeEffect :=
  if userId == "" || email == "" || priceId == "" then
    (.error (.msg "Missing required params"), s, [])
  else
    let custEffs : List StripeEffect :=
      match env.existingCustomer email with
      | some _ => [.listCustomers email]
      | none => [.listCustomers email, .createCustomer email]
    let cid := resolveCustomer env email
    let s1 := (stripeUpsertCustomer s userId cid).2
    let effs := custEffs ++ [.dbUpsertCustomer userId cid, .retrievePrice priceId]
    if env.priceValid priceId then
      (.ok (env.sessionUrl priceId), s1, effs ++ [.createSession cid priceId userId])
    else
      (.error (.msg ("Failed to create subscription: Invalid price ID: " ++ priceId)), s1, effs)

/-! ### Operation traces over the exported user actions -/

/-- One call to an exported user action. -/
inductive Op where
  | create (inp : CreateUserInput)
  | add (uid : String) (amount : Int)
  | consume (uid : String) (amount : Int) (coin strategy : String) (now : Nat)
  | setName (uid raw : String)
  | setWallet (uid raw : String)
  | clearWallet (uid : String)
  | setCoins (uid : String) (coins : List String)
deriving Repr, DecidableEq

/-- The store after an action: its new store on success, unchanged on a
thrown error. -/
def exceptStore {α : Type} (s : Store) : Except Err (α × Store) → Store
  | .ok (_, s1) => s1
  | .error _ => s

/-- Apply one operation to the store. -/
def applyOp (s : Store) : Op → Store
  | .create inp => exceptStore s (createUser s inp)
  | .add uid amount => exceptStore s (addCredits s uid amount)
  | .consume uid amount coin strategy now =>
      exceptStore s (consumeBacktestCredits s uid amount coin strategy now)
  | .setName uid raw => exceptStore s (setUsername s uid raw)
  | .setWallet uid raw => exceptStore s (setSolanaWallet s uid raw)
  | .clearWallet uid => exceptStore s (clearSolanaWallet s uid)
  | .setCoins uid coins => exceptStore s (updateUserTopCoins s uid coins)

/-- The store reached from the empty collection by a sequence of calls. -/
def runOps (ops : List Op) : Store := ops.foldl applyOp []

/-- A `createUser` call whose initial-credits argument is non-negative
(or omitted, letting the default 10 apply); every other operation. -/
def opCreditsSafe : Op → Bool
  | .create inp => decide (0 ≤ inp.credits.getD 10)
  | _ => true

/-! ### Debit sequences -/

/-- One requested debit. -/
structure DebitReq where
  amount : Int
  coin : String
  strategy : String
  now : Nat
deriving Repr, DecidableEq

/-- The history entry a request would log. -/
def entryOf (r : DebitReq) : CreditHistoryEntry :=
  consumeEntry r.amount r.coin r.strategy r.now

/-- Run a sequence of debits against one account, recording for each
call whether it reported success. -/
def runDebits (uid : String) : Store → List DebitReq → Store × List Bool
  | s, [] => (s, [])
  | s, r :: rs =>
    match consumeBacktestCredits s uid r.amount r.coin r.strategy r.now with
    | .ok (_, s1) =>
        let p := runDebits uid s1 rs
        (p.1, true :: p.2)
    | .error _ =>
        let p := runDebits uid s rs
        (p.1, false :: p.2)

/-- Sum of the amounts of the calls that reported success. -/
def successSum : List DebitReq → List Bool → Int
  | r :: rs, b :: bs => (if b then r.amount else 0) + successSum rs bs
  | _, _ => 0

/-- The observed balance of the account (0 when absent). -/
def creditsOf (s : Store) (uid : String) : Int :=
  match s.find? (fun a => a.clerkId == uid) with
  | some a => a.credits
  | none => 0

/-- The observed credit history of the account. -/
def historyOf (s : Store) (uid : String) : List CreditHistoryEntry :=
  match s.find? (fun a => a.clerkId == uid) with
  | some a => a.creditHistory
  | none => []

/-- Every account holds a non-negative balance. -/
def CreditsInv (s : Store) : Prop := ∀ a ∈ s, 0 ≤ a.credits

/-- Every account's history is capped at 50 entries. -/
def HistoryInv (s : Store) : Prop := ∀ a ∈ s, a.creditHistory.length ≤ 50

/-! ### Concrete fixtures used by witnesses and counterexamples -/

/-- A schema-default account document. -/
def baseAccount : Account :=
  { clerkId := "", email := "", firstName := "", lastName := "", username := none,
    usernameLower := none, subscriptionTier := "free", customerId := "", credits := 10,
    topCoins := [], creditHistory := [], solanaWallet := "" }

/-- A `createUser` input carrying an explicit negative initial-credits value. -/
def cexCreateInput : CreateUserInput :=
  { clerkId := "u1", email := "A@b.c", credits := some (-5) }

/-- One account with 5 credits. -/
def wStore1 : Store := [{ baseAccount with clerkId := "u1", credits := 5 }]

/-- Two debit requests of 3 credits each. -/
def wReqs1 : List DebitReq :=
  [{ amount := 3, coin := "BTC", strategy := "sma", now := 0 },
   { amount := 3, coin := "ETH", strategy := "ema", now := 1 }]

/-- One account with 60 credits. -/
def wStore3 : Store := [{ baseAccount with clerkId := "u1", credits := 60 }]

/-- 51 unit debits. -/
def wReqs3 : List DebitReq :=
  (List.range 51).map (fun i => { amount := 1, coin := "BTC", strategy := "sma", now := i })

/-- Two accounts; the first holds the username `validUser123`. -/
def wStore4 : Store :=
  [{ baseAccount with clerkId := "u1", email := "e1", username := some "validUser123", usernameLower := some "validuser123" },
   { baseAccount with clerkId := "u2", email := "e2" }]

/-- A 44-character base58 address. -/
def wAddr : String := String.mk (List.replicate 44 'A')

/-- Two accounts; the first has claimed `wAddr`. -/
def wStore5 : Store :=
  [{ baseAccount with clerkId := "u1", email := "e1", solanaWallet := wAddr },
   { baseAccount with clerkId := "u2", email := "e2" }]

/-- A webhook-style creation input. -/
def wInp6 : CreateUserInput :=
  { clerkId := "u1", email := " Bob@Example.com", firstName := some "Bob",
    lastName := some "B", subscriptionTier := some "free", customerId := some "",
    credits := none, username := some "bob123" }

/-- An existing account about to be re-synced. -/
def wStore6 : Store :=
  [{ baseAccount with clerkId := "u1", email := "old@x.y", customerId := "cus_1", credits := 7, topCoins := ["BTC"] }]

/-- One account already holding username `bob123` (case-insensitively). -/
def wStore7 : Store :=
  [{ baseAccount with clerkId := "u1", email := "e1", username := some "bob123", usernameLower := some "bob123" }]

/-- Same single-holder store, used to compare the availability probe with
the own-account rename path. -/
def wStore8 : Store :=
  [{ baseAccount with clerkId := "u1", email := "e1", username := some "bob123", usernameLower := some "bob123" }]

/-- A Stripe world with no pre-existing customer and exactly one valid
price id. -/
def wEnv : StripeEnv :=
  { existingCustomer := fun _ => none, newCustomerId := fun _ => "cus_new",
    priceValid := fun p => p == "price_ok", sessionUrl := fun _ => "https://checkout.example" }

/-- Recognize the checkout-session effect. -/
def isCreateSession : StripeEffect → Bool
  | .createSession _ _ _ => true
  | _ => false

/-- Recognize the customerId-persistence effect. -/
def isDbUpsert : StripeEffect → Bool
  | .dbUpsertCustomer _ _ => true
  | _ => false

/-- Scanning the effect trace left to right: true when no checkout
session is requested before the customerId has been persisted. -/
def sessionPrecededByUpsert : List StripeEffect → Bool
  | [] => true
  | e :: rest =>
      if isCreateSession e then false
      else if isDbUpsert e then true
      else sessionPrecededByUpsert rest

/-- The second account of `wStore4`. -/
def wAcct4b : Account := { baseAccount with clerkId := "u2", email := "e2" }

/-- The two accounts of `wStore5`. -/
def wAcct5a : Account := { baseAccount with clerkId := "u1", email := "e1", solanaWallet := wAddr }

/-- Companion account holding no wallet. -/
def wAcct5b : Account := { baseAccount with clerkId := "u2", email := "e2" }

/-- `wStore5` after the first account disconnects its wallet. -/
def wCleared : Store := [{ wAcct5a with solanaWallet := "" }, wAcct5b]

/-- The single account of `wStore6`. -/
def wAcct6 : Account := { baseAccount with clerkId := "u1", email := "old@x.y", customerId := "cus_1", credits := 7, topCoins := ["BTC"] }

/-- A profile-sync input with no username that must leave billing,
credits, coins and wallet untouched. -/
def wInp6b : CreateUserInput :=
  { clerkId := "u1", email := "New@Mail.com", firstName := some "N",
    lastName := some "L", subscriptionTier := some "basic",
    customerId := some "ignored", credits := some 99, username := none }

/-! ## Toolkit lemmas -/

theorem mem_replaceFirst {p : Account → Bool} {f : Account → Account} :
    ∀ {s : Store} {b : Account}, b ∈ replaceFirst p f s →
      b ∈ s ∨ ∃ a, a ∈ s ∧ p a = true ∧ b = f a := by
  intro s
  induction s with
  | nil => intro b hb; simp [replaceFirst] at hb
  | cons x xs ih =>
    intro b hb
    by_cases hx : p x = true
    · simp [replaceFirst, hx] at hb
      rcases hb with hb | hb
      · exact Or.inr ⟨x, by simp, hx, hb⟩
      · exact Or.inl (by simp [hb])
    · simp [replaceFirst, hx] at hb
      rcases hb with hb | hb
      · exact Or.inl (by simp [hb])
      · rcases ih hb with h | ⟨a, ha, hpa, hfa⟩
        · exact Or.inl (by simp [h])
        · exact Or.inr ⟨a, by simp [ha], hpa, hfa⟩

theorem map_clerkId_replaceFirst {p : Account → Bool} {f : Account → Account}
    (hf : ∀ a, (f a).clerkId = a.clerkId) :
    ∀ s : Store, (replaceFirst p f s).map Account.clerkId = s.map Account.clerkId := by
  intro s
  induction s with
  | nil => rfl
  | cons x xs ih =>
    by_cases hx : p x = true <;> simp [replaceFirst, hx, hf, ih]

theorem find?_replaceFirst_self {p : Account → Bool} {f : Account → Account}
    (hpf : ∀ x, p x = true → p (f x) = true) :
    ∀ {s : Store} {a : Account}, s.find? p = some a →
      (replaceFirst p f s).find? p = some (f a) := by
  intro s
  induction s with
  | nil => intro a h; simp at h
  | cons x xs ih =>
    intro a h
    by_cases hx : p x = true
    · rw [List.find?_cons_of_pos _ hx] at h
      cases h
      simp [replaceFirst, hx, List.find?_cons_of_pos _ (hpf _ hx)]
    · rw [List.find?_cons_of_neg _ (by simpa using hx)] at h
      simp [replaceFirst, hx, List.find?_cons_of_neg _ (by simpa using hx), ih h]

theorem find?_replaceFirst_excl {q P : Account → Bool} {f : Account → Account}
    (h : ∀ x, P x = true → q x = false ∧ q (f x) = false) :
    ∀ s : Store, (replaceFirst P f s).find? q = s.find? q := by
  intro s
  induction s with
  | nil => rfl
  | cons x xs ih =>
    by_cases hx : P x = true
    · have hq := h x hx
      simp only [replaceFirst, hx, if_true]
      rw [List.find?_cons_of_neg _ (by simp [hq.2]), List.find?_cons_of_neg _ (by simp [hq.1])]
    · by_cases hqx : q x = true
      · simp [replaceFirst, hx, List.find?_cons_of_pos _ hqx]
      · simp only [replaceFirst, hx, if_false, Bool.false_eq_true]
        rw [List.find?_cons_of_neg _ (by simpa using hqx),
            List.find?_cons_of_neg _ (by simpa using hqx), ih]

theorem any_replaceFirst_excl {q P : Account → Bool} {f : Account → Account}
    (h : ∀ x, P x = true → q x = false ∧ q (f x) = false) :
    ∀ s : Store, (replaceFirst P f s).any q = s.any q := by
  intro s
  induction s with
  | nil => rfl
  | cons x xs ih =>
    by_cases hx : P x = true
    · have hq := h x hx
      simp [replaceFirst, hx, hq.1, hq.2]
    · simp [replaceFirst, hx, ih]

theorem replaceFirst_eq_self {p : Account → Bool} {f : Account → Account} :
    ∀ {s : Store} {a : Account}, s.find? p = some a → f a = a →
      replaceFirst p f s = s := by
  intro s
  induction s with
  | nil => intro a h; simp at h
  | cons x xs ih =>
    intro a h hfa
    by_cases hx : p x = true
    · rw [List.find?_cons_of_pos _ hx] at h
      cases h
      simp [replaceFirst, hx, hfa]
    · rw [List.find?_cons_of_neg _ (by simpa using hx)] at h
      simp [replaceFirst, hx, ih h hfa]

theorem countP_clerkId_le_one {s : Store} (hWF : WF s) (cid : String) :
    s.countP (fun a => a.clerkId == cid) ≤ 1 := by
  have h1 : s.countP (fun a => a.clerkId == cid)
      = (s.map Account.clerkId).countP (fun c => c == cid) := by
    rw [List.countP_map]; rfl
  have h2 : (s.map Account.clerkId).countP (fun c => c == cid)
      = (s.map Account.clerkId).count cid := by
    simp [List.count]
  rw [h1, h2]
  exact List.nodup_iff_count_le_one.mp hWF cid

theorem mem_unique_of_countP {q : Account → Bool} {s : Store} {a b : Account}
    (hcount : s.countP q ≤ 1) (ha : a ∈ s) (hqa : q a = true)
    (hb : b ∈ s) (hqb : q b = true) : a = b := by
  by_contra hne
  obtain ⟨l1, l2, rfl⟩ := List.append_of_mem ha
  have hb2 : b ∈ l1 ∨ b ∈ l2 := by
    rcases List.mem_append.mp hb with h | h
    · exact Or.inl h
    · rcases List.mem_cons.mp h with h | h
      · exact absurd h.symm hne
      · exact Or.inr h
  have : 2 ≤ (l1 ++ a :: l2).countP q := by
    rcases hb2 with h | h
    · obtain ⟨m1, m2, rfl⟩ := List.append_of_mem h
      simp [List.countP_append, List.countP_cons, hqa, hqb]
      omega
    · obtain ⟨m1, m2, rfl⟩ := List.append_of_mem h
      simp [List.countP_append, List.countP_cons, hqa, hqb]
      omega
  omega

theorem find?_eq_some_of_mem_unique {q : Account → Bool} :
    ∀ {s : Store} {b : Account}, s.countP q ≤ 1 → b ∈ s → q b = true →
      s.find? q = some b := by
  intro s
  induction s with
  | nil => intro b _ hb; simp at hb
  | cons x xs ih =>
    intro b hcount hb hqb
    by_cases hx : q x = true
    · rw [List.find?_cons_of_pos _ hx]
      rcases List.mem_cons.mp hb with rfl | hb2
      · rfl
      · exact congrArg some (mem_unique_of_countP hcount (by simp) hx (by simp [hb2]) hqb)
    · rw [List.find?_cons_of_neg _ (by simpa using hx)]
      rcases List.mem_cons.mp hb with rfl | hb2
      · exact absurd hqb (by simpa using hx)
      · have hxf : q x = false := by simpa using hx
        have h2 := List.countP_cons q x xs
        rw [hxf] at h2
        simp at h2
        exact ih (by omega) hb2 hqb

theorem find?_q_replaceFirst {q P : Account → Bool} {f : Account → Account}
    (hPq : ∀ x, P x = true → q x = true)
    (hfq : ∀ x, q (f x) = q x) :
    ∀ {s : Store} {a : Account}, s.countP q ≤ 1 → s.find? P = some a →
      (replaceFirst P f s).find? q = some (f a) := by
  intro s
  induction s with
  | nil => intro a _ h; simp at h
  | cons x xs ih =>
    intro a hcount h
    by_cases hx : P x = true
    · rw [List.find?_cons_of_pos _ hx] at h
      cases h
      have : q (f x) = true := by rw [hfq]; exact hPq _ hx
      simp [replaceFirst, hx, List.find?_cons_of_pos _ this]
    · rw [List.find?_cons_of_neg _ (by simpa using hx)] at h
      have haxs : a ∈ xs := List.mem_of_find?_eq_some h
      have hqa : q a = true := hPq _ (List.find?_some h)
      have hqx : q x = false := by
        by_contra hqxx
        have hqx1 : q x = true := by simpa using hqxx
        have h1 : 0 < xs.countP q := List.countP_pos_iff.mpr ⟨a, haxs, hqa⟩
        have h2 := List.countP_cons q x xs
        rw [hqx1] at h2
        simp at h2
        omega
      have hxscount : xs.countP q ≤ 1 := by
        have h2 := List.countP_cons q x xs
        rw [hqx] at h2
        simp at h2
        omega
      simp only [replaceFirst, hx, if_false, Bool.false_eq_true]
      rw [List.find?_cons_of_neg _ (by simp [hqx]), ih hxscount h]

theorem find?_append_none {p : Account → Bool} :
    ∀ {l1 l2 : List Account}, l1.find? p = none → (l1 ++ l2).find? p = l2.find? p := by
  intro l1
  induction l1 with
  | nil => intro l2 _; rfl
  | cons x xs ih =>
    intro l2 h
    have hall := List.find?_eq_none.mp h
    rw [List.cons_append, List.find?_cons_of_neg _ (hall x (by simp)),
        ih (List.find?_eq_none.mpr fun y hy => hall y (by simp [hy]))]

/-! ## Inversion lemmas for the success paths -/

theorem createUser_ok_inv {s : Store} {inp : CreateUserInput} {u : Account} {s1 : Store}
    (h : createUser s inp = .ok (u, s1)) :
    emailTaken s inp.clerkId (normEmail inp.email) = false ∧
    usernameSetTaken s inp = false ∧
    ((∃ a, s.find? (fun x => x.clerkId == inp.clerkId) = some a ∧
           u = applyProfileSet inp a ∧
           s1 = replaceFirst (fun x => x.clerkId == inp.clerkId) (applyProfileSet inp) s) ∨
     (s.find? (fun x => x.clerkId == inp.clerkId) = none ∧
      u = freshAccount inp ∧ s1 = s ++ [freshAccount inp])) := by
  unfold createUser at h
  split at h
  next a heq =>
    split at h
    next hemail => cases h
    next hemail =>
      split at h
      next huser => cases h
      next huser =>
        simp only [Except.ok.injEq, Prod.mk.injEq] at h
        exact ⟨by simpa using hemail, by simpa using huser,
               Or.inl ⟨a, heq, h.1.symm, h.2.symm⟩⟩
  next heq =>
    split at h
    next hemail => cases h
    next hemail =>
      split at h
      next huser => cases h
      next huser =>
        simp only [Except.ok.injEq, Prod.mk.injEq] at h
        exact ⟨by simpa using hemail, by simpa using huser,
               Or.inr ⟨heq, h.1.symm, h.2.symm⟩⟩

theorem addCredits_ok_inv {s : Store} {uid : String} {amount : Int} {u : Account} {s1 : Store}
    (h : addCredits s uid amount = .ok (u, s1)) :
    ¬ amount ≤ 0 ∧ ∃ a, s.find? (fun x => x.clerkId == uid) = some a ∧
      u = { a with credits := a.credits + amount } ∧
      s1 = replaceFirst (fun x => x.clerkId == uid)
             (fun x => { x with credits := x.credits + amount }) s := by
  unfold addCredits at h
  split at h
  next hle => cases h
  next hle =>
    split at h
    next heq => cases h
    next a heq =>
      simp only [Except.ok.injEq, Prod.mk.injEq] at h
      exact ⟨hle, a, heq, h.1.symm, h.2.symm⟩

theorem setUsername_ok_inv {s : Store} {cid raw : String} {u : Account} {s1 : Store}
    (h : setUsername s cid raw = .ok (u, s1)) :
    usernameOk (jsTrim raw) = true ∧
    RESERVED.contains (jsLower (jsTrim raw)) = false ∧
    usernameTaken s cid (jsLower (jsTrim raw)) = false ∧
    ∃ a, s.find? (fun x => x.clerkId == cid) = some a ∧
      u = { a with username := some (jsTrim raw), usernameLower := some (jsLower (jsTrim raw)) } ∧
      s1 = replaceFirst (fun x => x.clerkId == cid)
             (fun x => { x with username := some (jsTrim raw),
                                usernameLower := some (jsLower (jsTrim raw)) }) s := by
  simp only [setUsername] at h
  split at h
  next hfmt => cases h
  next hfmt =>
    split at h
    next hres => cases h
    next hres =>
      split at h
      next heq => cases h
      next a heq =>
        split at h
        next htaken => cases h
        next htaken =>
          simp only [Except.ok.injEq, Prod.mk.injEq] at h
          exact ⟨by simpa using hfmt, by simpa using hres, by simpa using htaken,
                 a, heq, h.1.symm, h.2.symm⟩

theorem setSolanaWallet_ok_inv {s : Store} {cid raw : String} {u : Account} {s1 : Store}
    (h : setSolanaWallet s cid raw = .ok (u, s1)) :
    isValidSolAddress (jsTrim raw) = true ∧
    walletTaken s cid (jsTrim raw) = false ∧
    ∃ a, s.find? (fun x => x.clerkId == cid) = some a ∧
      u = { a with solanaWallet := jsTrim raw } ∧
      s1 = replaceFirst (fun x => x.clerkId == cid)
             (fun x => { x with solanaWallet := jsTrim raw }) s := by
  simp only [setSolanaWallet] at h
  split at h
  next hfmt => cases h
  next hfmt =>
    split at h
    next heq => cases h
    next a heq =>
      split at h
      next htaken => cases h
      next htaken =>
        simp only [Except.ok.injEq, Prod.mk.injEq] at h
        exact ⟨by simpa using hfmt, by simpa using htaken, a, heq, h.1.symm, h.2.symm⟩

theorem clearSolanaWallet_ok_inv {s : Store} {cid : String} {u : Account} {s1 : Store}
    (h : clearSolanaWallet s cid = .ok (u, s1)) :
    ∃ a, s.find? (fun x => x.clerkId == cid) = some a ∧
      u = { a with solanaWallet := "" } ∧
      s1 = replaceFirst (fun x => x.clerkId == cid)
             (fun x => { x with solanaWallet := "" }) s := by
  unfold clearSolanaWallet at h
  split at h
  next heq => cases h
  next a heq =>
    simp only [Except.ok.injEq, Prod.mk.injEq] at h
    exact ⟨a, heq, h.1.symm, h.2.symm⟩

theorem updateUserTopCoins_ok_inv {s : Store} {uid : String} {coins r : List String} {s1 : Store}
    (h : updateUserTopCoins s uid coins = .ok (r, s1)) :
    coins.length ≤ 3 ∧ r = coins ∧
    s1 = replaceFirst (fun x => x.clerkId == uid) (fun x => { x with topCoins := coins }) s := by
  unfold updateUserTopCoins at h
  split at h
  next hlen => cases h
  next hlen =>
    split at h
    next heq => cases h
    next a heq =>
      simp only [Except.ok.injEq, Prod.mk.injEq] at h
      exact ⟨by omega, h.1.symm, h.2.symm⟩

/-! ## Characterization of the conditional debit under a unique key -/

theorem find?_consumePred {uid : String} {amt : Int} :
    ∀ {s : Store}, WF s →
      s.find? (consumePred uid amt) =
        (match s.find? (fun a => a.clerkId == uid) with
         | some a => if amt ≤ a.credits then some a else none
         | none => none) := by
  intro s
  induction s with
  | nil => intro _; rfl
  | cons x xs ih =>
    intro hWF
    rw [WF, List.map_cons, List.nodup_cons] at hWF
    obtain ⟨hnotin, hWFxs⟩ := hWF
    by_cases hx : (x.clerkId == uid) = true
    · by_cases hc : amt ≤ x.credits
      · have hpx : consumePred uid amt x = true := by simp [consumePred, hx, hc]
        simp only [List.find?, hpx, hx]
        simp [hc]
      · have hpx : consumePred uid amt x = false := by simp [consumePred, hc]
        have hnone : xs.find? (consumePred uid amt) = none :=
          List.find?_eq_none.mpr (fun y hy hpy => hnotin (by
            have hyuid : (y.clerkId == uid) = true := by
              simp only [consumePred, Bool.and_eq_true] at hpy
              exact hpy.1
            have hyx : y.clerkId = x.clerkId := by
              rw [beq_iff_eq] at hyuid hx
              rw [hyuid, hx]
            exact hyx ▸ List.mem_map_of_mem Account.clerkId hy))
        simp only [List.find?, hpx, hx, hnone]
        simp [hc]
    · have hx2 : (x.clerkId == uid) = false := by simpa using hx
      have hpx : consumePred uid amt x = false := by simp [consumePred, hx2]
      simp only [List.find?, hpx, hx2]
      exact ih hWFxs

theorem consume_spec {s : Store} {uid : String} {amt : Int} {coin strategy : String} {now : Nat}
    (hWF : WF s) :
    consumeBacktestCredits s uid amt coin strategy now =
      if amt ≤ 0 then .error (.msg "Amount must be > 0")
      else
        (match s.find? (fun a => a.clerkId == uid) with
         | none => .error (.msg "User not found or not enough credits")
         | some a =>
             if amt ≤ a.credits then
               .ok (consumeUpd amt coin strategy now a,
                    replaceFirst (consumePred uid amt) (consumeUpd amt coin strategy now) s)
             else .error (.msg "User not found or not enough credits")) := by
  unfold consumeBacktestCredits
  rw [find?_consumePred hWF]
  cases hf : s.find? (fun a => a.clerkId == uid) with
  | none => rfl
  | some a =>
    by_cases hc : amt ≤ a.credits <;> simp [hc]

theorem consume_ok_spec {s : Store} {uid : String} {amt : Int} {coin strategy : String}
    {now : Nat} {u : Account} {s1 : Store} (hWF : WF s)
    (h : consumeBacktestCredits s uid amt coin strategy now = .ok (u, s1)) :
    ∃ a, s.find? (fun x => x.clerkId == uid) = some a ∧ ¬ amt ≤ 0 ∧ amt ≤ a.credits ∧
      u = consumeUpd amt coin strategy now a ∧
      s1.find? (fun x => x.clerkId == uid) = some u ∧
      s1.map Account.clerkId = s.map Account.clerkId ∧ WF s1 := by
  rw [consume_spec hWF] at h
  split at h
  next => cases h
  next hle =>
    split at h
    next heq => cases h
    next a heq =>
      split at h
      next hc =>
        simp only [Except.ok.injEq, Prod.mk.injEq] at h
        obtain ⟨hu, hs1⟩ := h
        have hfindP : s.find? (consumePred uid amt) = some a := by
          rw [find?_consumePred hWF, heq]
          simp [hc]
        have hmap : s1.map Account.clerkId = s.map Account.clerkId := by
          rw [← hs1]
          exact @map_clerkId_replaceFirst (consumePred uid amt)
            (consumeUpd amt coin strategy now) (fun _ => rfl) s
        refine ⟨a, heq, hle, hc, hu.symm, ?_, hmap, ?_⟩
        · rw [← hs1, ← hu]
          exact @find?_q_replaceFirst (fun x => x.clerkId == uid) (consumePred uid amt)
            (consumeUpd amt coin strategy now)
            (fun x hx => by
              simp only [consumePred, Bool.and_eq_true] at hx
              exact hx.1)
            (fun x => rfl) s a
            (countP_clerkId_le_one hWF uid) hfindP
        · rw [WF, hmap]
          exact hWF
      next hc => cases h

/-! ## Debit sequences: accounting, non-negativity, history -/

theorem consume_ok_raw {s : Store} {uid : String} {amt : Int} {coin strategy : String}
    {now : Nat} {u : Account} {s1 : Store}
    (h : consumeBacktestCredits s uid amt coin strategy now = .ok (u, s1)) :
    ¬ amt ≤ 0 ∧ ∃ a, s.find? (consumePred uid amt) = some a ∧
      u = consumeUpd amt coin strategy now a ∧
      s1 = replaceFirst (consumePred uid amt) (consumeUpd amt coin strategy now) s := by
  unfold consumeBacktestCredits at h
  split at h
  next hle => cases h
  next hle =>
    split at h
    next heq => cases h
    next a heq =>
      simp only [Except.ok.injEq, Prod.mk.injEq] at h
      exact ⟨hle, a, heq, h.1.symm, h.2.symm⟩

theorem runDebits_credits {uid : String} :
    ∀ (rs : List DebitReq) (s : Store), WF s →
      creditsOf (runDebits uid s rs).1 uid =
        creditsOf s uid - successSum rs (runDebits uid s rs).2 := by
  intro rs
  induction rs with
  | nil => intro s _; simp [runDebits, successSum]
  | cons r rs ih =>
    intro s hWF
    cases hc : consumeBacktestCredits s uid r.amount r.coin r.strategy r.now with
    | ok p =>
      obtain ⟨u, s1⟩ := p
      obtain ⟨a, hfind, hle, hcred, hu, hfind1, hmap, hWF1⟩ := consume_ok_spec hWF hc
      have hcs : creditsOf s uid = a.credits := by simp [creditsOf, hfind]
      have hcs1 : creditsOf s1 uid = a.credits - r.amount := by
        simp [creditsOf, hfind1, hu, consumeUpd]
      have hih := ih s1 hWF1
      simp only [runDebits, hc, successSum, if_true]
      rw [hih, hcs1, hcs]
      omega
    | error e =>
      have hih := ih s hWF
      simp only [runDebits, hc, successSum, Bool.false_eq_true, if_false]
      rw [hih]
      omega

theorem runDebits_nonneg {uid : String} :
    ∀ (rs : List DebitReq) (s : Store), WF s → 0 ≤ creditsOf s uid →
      0 ≤ creditsOf (runDebits uid s rs).1 uid := by
  intro rs
  induction rs with
  | nil => intro s _ h; simpa [runDebits] using h
  | cons r rs ih =>
    intro s hWF h0
    cases hc : consumeBacktestCredits s uid r.amount r.coin r.strategy r.now with
    | ok p =>
      obtain ⟨u, s1⟩ := p
      obtain ⟨a, hfind, hle, hcred, hu, hfind1, hmap, hWF1⟩ := consume_ok_spec hWF hc
      have hcs1 : creditsOf s1 uid = a.credits - r.amount := by
        simp [creditsOf, hfind1, hu, consumeUpd]
      simp only [runDebits, hc]
      exact ih s1 hWF1 (by rw [hcs1]; omega)
    | error e =>
      simp only [runDebits, hc]
      exact ih s hWF h0

theorem runDebits_history {uid : String} :
    ∀ (rs : List DebitReq) (s : Store), WF s →
      (runDebits uid s rs).2.all id = true →
      historyOf (runDebits uid s rs).1 uid =
        rs.foldl (fun h r => (entryOf r :: h).take 50) (historyOf s uid) := by
  intro rs
  induction rs with
  | nil => intro s _ _; simp [runDebits]
  | cons r rs ih =>
    intro s hWF hall
    cases hc : consumeBacktestCredits s uid r.amount r.coin r.strategy r.now with
    | ok p =>
      obtain ⟨u, s1⟩ := p
      obtain ⟨a, hfind, hle, hcred, hu, hfind1, hmap, hWF1⟩ := consume_ok_spec hWF hc
      have hh : historyOf s uid = a.creditHistory := by simp [historyOf, hfind]
      have hh1 : historyOf s1 uid = (entryOf r :: a.creditHistory).take 50 := by
        simp [historyOf, hfind1, hu, consumeUpd, entryOf]
      have hall1 : (runDebits uid s1 rs).2.all id = true := by
        simp only [runDebits, hc] at hall
        simpa using hall
      simp only [runDebits, hc]
      rw [ih s1 hWF1 hall1, List.foldl_cons, hh1, hh]
    | error e =>
      exfalso
      simp only [runDebits, hc] at hall
      simp at hall

theorem take_append_take {α : Type} (A B : List α) (n : ℕ) :
    (A ++ B.take n).take n = (A ++ B).take n := by
  rw [List.take_append_eq_append_take, List.take_append_eq_append_take, List.take_take,
      Nat.min_eq_left (Nat.sub_le n A.length)]

theorem foldl_prepend_take :
    ∀ (rs : List DebitReq) (h0 : List CreditHistoryEntry), h0.length ≤ 50 →
      rs.foldl (fun h r => (entryOf r :: h).take 50) h0 =
        ((rs.map entryOf).reverse ++ h0).take 50 := by
  intro rs
  induction rs with
  | nil =>
    intro h0 hlen
    simp [List.take_of_length_le hlen]
  | cons r rs ih =>
    intro h0 hlen
    rw [List.foldl_cons, ih _ (by simp [List.length_take]),
        List.map_cons, List.reverse_cons, List.append_assoc, take_append_take,
        List.singleton_append]

/-! ## Invariant preservation over operation traces -/

theorem creditsInv_replace {s : Store} {p : Account → Bool} {f : Account → Account}
    (hs : CreditsInv s)
    (hf : ∀ a, a ∈ s → p a = true → 0 ≤ a.credits → 0 ≤ (f a).credits) :
    CreditsInv (replaceFirst p f s) := by
  intro b hb
  rcases mem_replaceFirst hb with h | ⟨a, ha, hpa, rfl⟩
  · exact hs b h
  · exact hf a ha hpa (hs a ha)

theorem historyInv_replace {s : Store} {p : Account → Bool} {f : Account → Account}
    (hs : HistoryInv s)
    (hf : ∀ a, a ∈ s → p a = true → a.creditHistory.length ≤ 50 →
            (f a).creditHistory.length ≤ 50) :
    HistoryInv (replaceFirst p f s) := by
  intro b hb
  rcases mem_replaceFirst hb with h | ⟨a, ha, hpa, rfl⟩
  · exact hs b h
  · exact hf a ha hpa (hs a ha)

theorem creditsInv_applyOp {s : Store} {op : Op}
    (hs : CreditsInv s) (hop : opCreditsSafe op = true) :
    CreditsInv (applyOp s op) := by
  cases op with
  | create inp =>
    simp only [applyOp]
    cases hres : createUser s inp with
    | error e => simpa [exceptStore] using hs
    | ok r =>
      obtain ⟨u, s1⟩ := r
      simp only [exceptStore]
      obtain ⟨-, -, hcase⟩ := createUser_ok_inv hres
      rcases hcase with ⟨a, hfind, hu, hs1⟩ | ⟨hfind, hu, hs1⟩
      · subst hs1
        refine creditsInv_replace hs (fun x _ _ hx => ?_)
        cases htu : trimmedUsername inp.username <;> simp [applyProfileSet, htu] <;> exact hx
      · subst hs1
        intro b hb
        rcases List.mem_append.mp hb with h | h
        · exact hs b h
        · simp only [List.mem_singleton] at h
          subst h
          simpa [opCreditsSafe, freshAccount] using hop
  | add uid amount =>
    simp only [applyOp]
    cases hres : addCredits s uid amount with
    | error e => simpa [exceptStore] using hs
    | ok r =>
      obtain ⟨u, s1⟩ := r
      simp only [exceptStore]
      obtain ⟨hpos, a, hfind, hu, hs1⟩ := addCredits_ok_inv hres
      subst hs1
      refine creditsInv_replace hs (fun x _ _ hx => ?_)
      show 0 ≤ x.credits + amount
      omega
  | consume uid amount coin strategy now =>
    simp only [applyOp]
    cases hres : consumeBacktestCredits s uid amount coin strategy now with
    | error e => simpa [exceptStore] using hs
    | ok r =>
      obtain ⟨u, s1⟩ := r
      simp only [exceptStore]
      obtain ⟨hpos, a, hfind, hu, hs1⟩ := consume_ok_raw hres
      subst hs1
      refine creditsInv_replace hs (fun x _ hpx _ => ?_)
      simp only [consumePred, Bool.and_eq_true, decide_eq_true_eq] at hpx
      show 0 ≤ x.credits - amount
      omega
  | setName uid raw =>
    simp only [applyOp]
    cases hres : setUsername s uid raw with
    | error e => simpa [exceptStore] using hs
    | ok r =>
      obtain ⟨u, s1⟩ := r
      simp only [exceptStore]
      obtain ⟨-, -, -, a, hfind, hu, hs1⟩ := setUsername_ok_inv hres
      subst hs1
      exact creditsInv_replace hs (fun x _ _ hx => hx)
  | setWallet uid raw =>
    simp only [applyOp]
    cases hres : setSolanaWallet s uid raw with
    | error e => simpa [exceptStore] using hs
    | ok r =>
      obtain ⟨u, s1⟩ := r
      simp only [exceptStore]
      obtain ⟨-, -, a, hfind, hu, hs1⟩ := setSolanaWallet_ok_inv hres
      subst hs1
      exact creditsInv_replace hs (fun x _ _ hx => hx)
  | clearWallet uid =>
    simp only [applyOp]
    cases hres : clearSolanaWallet s uid with
    | error e => simpa [exceptStore] using hs
    | ok r =>
      obtain ⟨u, s1⟩ := r
      simp only [exceptStore]
      obtain ⟨a, hfind, hu, hs1⟩ := clearSolanaWallet_ok_inv hres
      subst hs1
      exact creditsInv_replace hs (fun x _ _ hx => hx)
  | setCoins uid coins =>
    simp only [applyOp]
    cases hres : updateUserTopCoins s uid coins with
    | error e => simpa [exceptStore] using hs
    | ok r =>
      obtain ⟨rr, s1⟩ := r
      simp only [exceptStore]
      obtain ⟨-, -, hs1⟩ := updateUserTopCoins_ok_inv hres
      subst hs1
      exact creditsInv_replace hs (fun x _ _ hx => hx)

theorem historyInv_applyOp {s : Store} {op : Op} (hs : HistoryInv s) :
    HistoryInv (applyOp s op) := by
  cases op with
  | create inp =>
    simp only [applyOp]
    cases hres : createUser s inp with
    | error e => simpa [exceptStore] using hs
    | ok r =>
      obtain ⟨u, s1⟩ := r
      simp only [exceptStore]
      obtain ⟨-, -, hcase⟩ := createUser_ok_inv hres
      rcases hcase with ⟨a, hfind, hu, hs1⟩ | ⟨hfind, hu, hs1⟩
      · subst hs1
        refine historyInv_replace hs (fun x _ _ hx => ?_)
        cases htu : trimmedUsername inp.username <;> simp [applyProfileSet, htu] <;> exact hx
      · subst hs1
        intro b hb
        rcases List.mem_append.mp hb with h | h
        · exact hs b h
        · simp only [List.mem_singleton] at h
          subst h
          simp [freshAccount]
  | add uid amount =>
    simp only [applyOp]
    cases hres : addCredits s uid amount with
    | error e => simpa [exceptStore] using hs
    | ok r =>
      obtain ⟨u, s1⟩ := r
      simp only [exceptStore]
      obtain ⟨hpos, a, hfind, hu, hs1⟩ := addCredits_ok_inv hres
      subst hs1
      exact historyInv_replace hs (fun x _ _ hx => hx)
  | consume uid amount coin strategy now =>
    simp only [applyOp]
    cases hres : consumeBacktestCredits s uid amount coin strategy now with
    | error e => simpa [exceptStore] using hs
    | ok r =>
      obtain ⟨u, s1⟩ := r
      simp only [exceptStore]
      obtain ⟨hpos, a, hfind, hu, hs1⟩ := consume_ok_raw hres
      subst hs1
      refine historyInv_replace hs (fun x _ _ _ => ?_)
      show ((consumeEntry amount coin strategy now :: x.creditHistory).take 50).length ≤ 50
      simp [List.length_take]
  | setName uid raw =>
    simp only [applyOp]
    cases hres : setUsername s uid raw with
    | error e => simpa [exceptStore] using hs
    | ok r =>
      obtain ⟨u, s1⟩ := r
      simp only [exceptStore]
      obtain ⟨-, -, -, a, hfind, hu, hs1⟩ := setUsername_ok_inv hres
      subst hs1
      exact historyInv_replace hs (fun x _ _ hx => hx)
  | setWallet uid raw =>
    simp only [applyOp]
    cases hres : setSolanaWallet s uid raw with
    | error e => simpa [exceptStore] using hs
    | ok r =>
      obtain ⟨u, s1⟩ := r
      simp only [exceptStore]
      obtain ⟨-, -, a, hfind, hu, hs1⟩ := setSolanaWallet_ok_inv hres
      subst hs1
      exact historyInv_replace hs (fun x _ _ hx => hx)
  | clearWallet uid =>
    simp only [applyOp]
    cases hres : clearSolanaWallet s uid with
    | error e => simpa [exceptStore] using hs
    | ok r =>
      obtain ⟨u, s1⟩ := r
      simp only [exceptStore]
      obtain ⟨a, hfind, hu, hs1⟩ := clearSolanaWallet_ok_inv hres
      subst hs1
      exact historyInv_replace hs (fun x _ _ hx => hx)
  | setCoins uid coins =>
    simp only [applyOp]
    cases hres : updateUserTopCoins s uid coins with
    | error e => simpa [exceptStore] using hs
    | ok r =>
      obtain ⟨rr, s1⟩ := r
      simp only [exceptStore]
      obtain ⟨-, -, hs1⟩ := updateUserTopCoins_ok_inv hres
      subst hs1
      exact historyInv_replace hs (fun x _ _ hx => hx)

theorem creditsInv_foldl :
    ∀ (ops : List Op) (s : Store), CreditsInv s →
      (∀ op ∈ ops, opCreditsSafe op = true) →
      CreditsInv (ops.foldl applyOp s) := by
  intro ops
  induction ops with
  | nil => intro s hs _; simpa using hs
  | cons op ops ih =>
    intro s hs hops
    rw [List.foldl_cons]
    exact ih _ (creditsInv_applyOp hs (hops op (by simp)))
      (fun o ho => hops o (by simp [ho]))

theorem historyInv_foldl :
    ∀ (ops : List Op) (s : Store), HistoryInv s → HistoryInv (ops.foldl applyOp s) := by
  intro ops
  induction ops with
  | nil => intro s hs; simpa using hs
  | cons op ops ih =>
    intro s hs
    rw [List.foldl_cons]
    exact ih _ (historyInv_applyOp hs)

/-! ## createUser idempotence machinery -/

theorem applyProfileSet_clerkId (inp : CreateUserInput) (a : Account) :
    (applyProfileSet inp a).clerkId = a.clerkId := by
  cases htu : trimmedUsername inp.username <;> simp [applyProfileSet, htu]

theorem applyProfileSet_idem (inp : CreateUserInput) (a : Account) :
    applyProfileSet inp (applyProfileSet inp a) = applyProfileSet inp a := by
  cases htu : trimmedUsername inp.username <;> simp [applyProfileSet, htu]

theorem applyProfileSet_fresh (inp : CreateUserInput) :
    applyProfileSet inp (freshAccount inp) = freshAccount inp := by
  cases htu : trimmedUsername inp.username <;> simp [applyProfileSet, freshAccount, htu]

theorem emailTaken_replaceFirst {cid e : String} {f : Account → Account}
    (hf : ∀ x, (f x).clerkId = x.clerkId) (s : Store) :
    emailTaken (replaceFirst (fun x => x.clerkId == cid) f s) cid e = emailTaken s cid e := by
  unfold emailTaken
  exact any_replaceFirst_excl (fun x hx => by
    constructor
    · simp [bne, hx]
    · simp [bne, hf, hx]) s

theorem usernameTaken_replaceFirst {cid l : String} {f : Account → Account}
    (hf : ∀ x, (f x).clerkId = x.clerkId) (s : Store) :
    usernameTaken (replaceFirst (fun x => x.clerkId == cid) f s) cid l = usernameTaken s cid l := by
  unfold usernameTaken
  exact any_replaceFirst_excl (fun x hx => by
    constructor
    · simp [bne, hx]
    · simp [bne, hf, hx]) s

theorem walletTaken_replaceFirst {cid w : String} {f : Account → Account}
    (hf : ∀ x, (f x).clerkId = x.clerkId) (s : Store) :
    walletTaken (replaceFirst (fun x => x.clerkId == cid) f s) cid w = walletTaken s cid w := by
  unfold walletTaken
  exact any_replaceFirst_excl (fun x hx => by
    constructor
    · simp [bne, hx]
    · simp [bne, hf, hx]) s

theorem emailTaken_append_self {cid e : String} {b : Account}
    (hb : b.clerkId = cid) (s : Store) :
    emailTaken (s ++ [b]) cid e = emailTaken s cid e := by
  unfold emailTaken
  rw [List.any_append]
  simp [bne, hb]

theorem usernameTaken_append_self {cid l : String} {b : Account}
    (hb : b.clerkId = cid) (s : Store) :
    usernameTaken (s ++ [b]) cid l = usernameTaken s cid l := by
  unfold usernameTaken
  rw [List.any_append]
  simp [bne, hb]

theorem usernameSetTaken_replaceFirst {inp : CreateUserInput} {f : Account → Account}
    (hf : ∀ x, (f x).clerkId = x.clerkId) (s : Store) :
    usernameSetTaken (replaceFirst (fun x => x.clerkId == inp.clerkId) f s) inp
      = usernameSetTaken s inp := by
  unfold usernameSetTaken
  cases htu : trimmedUsername inp.username
  · rfl
  · exact usernameTaken_replaceFirst hf s

theorem usernameSetTaken_append_self {inp : CreateUserInput} {b : Account}
    (hb : b.clerkId = inp.clerkId) (s : Store) :
    usernameSetTaken (s ++ [b]) inp = usernameSetTaken s inp := by
  unfold usernameSetTaken
  cases htu : trimmedUsername inp.username
  · rfl
  · exact usernameTaken_append_self hb s

theorem countP_clerkId_map (s : Store) (cid : String) :
    s.countP (fun a => a.clerkId == cid) = (s.map Account.clerkId).countP (fun c => c == cid) := by
  rw [List.countP_map]
  rfl

theorem createUser_idem {s : Store} {inp : CreateUserInput} {u : Account} {s1 : Store}
    (hWF : WF s) (h : createUser s inp = .ok (u, s1)) :
    createUser s1 inp = .ok (u, s1) ∧
    s1.countP (fun b => b.clerkId == inp.clerkId) = 1 ∧ WF s1 := by
  obtain ⟨hemail, huser, hcase⟩ := createUser_ok_inv h
  rcases hcase with ⟨a, hfind, hu, hs1⟩ | ⟨hfind, hu, hs1⟩
  · -- update path
    have hPf : ∀ x, (x.clerkId == inp.clerkId) = true →
        ((applyProfileSet inp x).clerkId == inp.clerkId) = true := by
      intro x hx
      rw [applyProfileSet_clerkId]
      exact hx
    have hfind1 : s1.find? (fun x => x.clerkId == inp.clerkId) = some (applyProfileSet inp a) := by
      rw [hs1]
      exact find?_replaceFirst_self hPf hfind
    have hmap : s1.map Account.clerkId = s.map Account.clerkId := by
      rw [hs1]
      exact map_clerkId_replaceFirst (applyProfileSet_clerkId inp) s
    have hWF1 : WF s1 := by rw [WF, hmap]; exact hWF
    have hemail1 : emailTaken s1 inp.clerkId (normEmail inp.email) = false := by
      rw [hs1, emailTaken_replaceFirst (applyProfileSet_clerkId inp) s]
      exact hemail
    have huser1 : usernameSetTaken s1 inp = false := by
      rw [hs1, usernameSetTaken_replaceFirst (applyProfileSet_clerkId inp) s]
      exact huser
    refine ⟨?_, ?_, hWF1⟩
    · unfold createUser
      rw [hfind1, hemail1, huser1]
      simp only [Bool.false_eq_true, if_false]
      rw [applyProfileSet_idem, replaceFirst_eq_self hfind1 (applyProfileSet_idem inp a), ← hu]
    · rw [countP_clerkId_map, hmap, ← countP_clerkId_map]
      have hle := countP_clerkId_le_one hWF inp.clerkId
      have hmem : a ∈ s := List.mem_of_find?_eq_some hfind
      have hqa := List.find?_some hfind
      have hpos : 0 < s.countP (fun b => b.clerkId == inp.clerkId) :=
        List.countP_pos_iff.mpr ⟨a, hmem, hqa⟩
      omega
  · -- insert path
    have hnew : (freshAccount inp).clerkId = inp.clerkId := rfl
    have hfind1 : s1.find? (fun x => x.clerkId == inp.clerkId) = some (freshAccount inp) := by
      rw [hs1, find?_append_none hfind]
      simp [List.find?_cons_of_pos, freshAccount]
    have hnotin : inp.clerkId ∉ s.map Account.clerkId := by
      intro hmem
      obtain ⟨b, hb, hbeq⟩ := List.mem_map.mp hmem
      apply List.find?_eq_none.mp hfind b hb
      simp [hbeq]
    have hWF1 : WF s1 := by
      rw [hs1, WF, List.map_append, List.map_cons, List.map_nil]
      rw [List.nodup_append]
      exact ⟨hWF, by simp, by
        intro x hx
        simp only [List.mem_singleton]
        intro hxeq
        rw [hxeq] at hx
        exact hnotin hx⟩
    have hemail1 : emailTaken s1 inp.clerkId (normEmail inp.email) = false := by
      rw [hs1, emailTaken_append_self hnew s]
      exact hemail
    have huser1 : usernameSetTaken s1 inp = false := by
      rw [hs1, usernameSetTaken_append_self hnew s]
      exact huser
    refine ⟨?_, ?_, hWF1⟩
    · unfold createUser
      rw [hfind1, hemail1, huser1]
      simp only [Bool.false_eq_true, if_false]
      rw [applyProfileSet_fresh, replaceFirst_eq_self hfind1 (applyProfileSet_fresh inp), ← hu]
    · have hzero : s.countP (fun b => b.clerkId == inp.clerkId) = 0 :=
        List.countP_eq_zero.mpr (fun b hb => by
          simpa using List.find?_eq_none.mp hfind b hb)
      rw [hs1, List.countP_append, hzero]
      simp [freshAccount]

/-! ## createUser one-shot helpers (webhook handler) -/

theorem createUser_dup_username {s : Store} {inp : CreateUserInput}
    (hemail : emailTaken s inp.clerkId (normEmail inp.email) = false)
    (huser : usernameSetTaken s inp = true) :
    createUser s inp = .error (.dupKey "usernameLower") := by
  unfold createUser
  cases hf : s.find? (fun a => a.clerkId == inp.clerkId) <;> simp [hemail, huser]

theorem createUser_no_username_ok {s : Store} {inp : CreateUserInput}
    (hun : trimmedUsername inp.username = none)
    (hemail : emailTaken s inp.clerkId (normEmail inp.email) = false) :
    ∃ u s1, createUser s inp = .ok (u, s1) ∧ u.email = normEmail inp.email ∧
      u.firstName = inp.firstName.getD "" ∧ u.lastName = inp.lastName.getD "" := by
  have huser : usernameSetTaken s inp = false := by simp [usernameSetTaken, hun]
  unfold createUser
  cases hf : s.find? (fun a => a.clerkId == inp.clerkId) with
  | some a =>
    refine ⟨applyProfileSet inp a,
            replaceFirst (fun x => x.clerkId == inp.clerkId) (applyProfileSet inp) s,
            ?_, ?_, ?_, ?_⟩
    · simp [hemail, huser]
    · simp [applyProfileSet, hun]
    · simp [applyProfileSet, hun]
    · simp [applyProfileSet, hun]
  | none =>
    refine ⟨freshAccount inp, s ++ [freshAccount inp], ?_, ?_, ?_, ?_⟩
    · simp [hemail, huser]
    · simp [freshAccount]
    · simp [freshAccount]
    · simp [freshAccount]

/-! ## Wallet-release helper -/

theorem walletTaken_clear_false {c1 c2 addr : String} :
    ∀ {s : Store}, WF s → addr ≠ "" →
      (∀ b ∈ s, b.solanaWallet = addr → b.clerkId = c1) →
      walletTaken (replaceFirst (fun x => x.clerkId == c1)
        (fun x => { x with solanaWallet := "" }) s) c2 addr = false := by
  intro s
  induction s with
  | nil => intro _ _ _; rfl
  | cons x xs ih =>
    intro hWF hne honly
    rw [WF, List.map_cons, List.nodup_cons] at hWF
    obtain ⟨hnotin, hWFxs⟩ := hWF
    by_cases hx : (x.clerkId == c1) = true
    · simp only [replaceFirst, hx, if_true]
      unfold walletTaken
      rw [List.any_cons]
      have hhead : ¬ ({ x with solanaWallet := "" } : Account).solanaWallet = addr := by
        simpa using (Ne.symm hne)
      have htail : ∀ b ∈ xs, ¬ b.solanaWallet = addr := by
        intro b hb hbw
        have hbc : b.clerkId = c1 := honly b (by simp [hb]) hbw
        rw [beq_iff_eq] at hx
        exact hnotin (by rw [← hx] at hbc; exact hbc ▸ List.mem_map_of_mem Account.clerkId hb)
      simp only [Bool.or_eq_false_iff]
      constructor
      · simp [hhead]
      · rw [List.any_eq_false]
        intro b hb
        simp [htail b hb]
    · have hx2 : (x.clerkId == c1) = false := by simpa using hx
      simp only [replaceFirst, hx2, Bool.false_eq_true, if_false]
      unfold walletTaken
      rw [List.any_cons]
      have hhead : ¬ x.solanaWallet = addr := by
        intro hxw
        have hcx : x.clerkId = c1 := honly x (by simp) hxw
        rw [hcx] at hx2
        simp at hx2
      simp only [Bool.or_eq_false_iff]
      constructor
      · simp [hhead]
      · exact ih hWFxs hne (fun b hb => honly b (by simp [hb]))

/-! ## Further support lemmas -/

theorem mem_replaceFirst_strong {p : Account → Bool} {f : Account → Account} :
    ∀ {s : Store} {a b : Account}, s.find? p = some a → b ∈ replaceFirst p f s →
      b = f a ∨ b ∈ s := by
  intro s
  induction s with
  | nil => intro a b h _; simp at h
  | cons x xs ih =>
    intro a b h hb
    by_cases hx : p x = true
    · rw [List.find?_cons_of_pos _ hx] at h
      cases h
      simp only [replaceFirst, hx, if_true] at hb
      rcases List.mem_cons.mp hb with rfl | hb2
      · exact Or.inl rfl
      · exact Or.inr (by simp [hb2])
    · rw [List.find?_cons_of_neg _ (by simpa using hx)] at h
      have hx2 : p x = false := by simpa using hx
      simp only [replaceFirst, hx2, Bool.false_eq_true, if_false] at hb
      rcases List.mem_cons.mp hb with rfl | hb2
      · exact Or.inr (by simp)
      · rcases ih h hb2 with h1 | h1
        · exact Or.inl h1
        · exact Or.inr (by simp [h1])

theorem isSpaceChar_of_base58 {c : Char} (h : isBase58Char c = true) :
    isSpaceChar c = false := by
  by_contra hsp
  have hsp2 : isSpaceChar c = true := by simpa using hsp
  simp only [isSpaceChar, Bool.or_eq_true, beq_iff_eq] at hsp2
  rcases hsp2 with ((rfl | rfl) | rfl) | rfl <;> simp [isBase58Char] at h

theorem dropWhile_eq_self_of_none {p : Char → Bool} {l : List Char}
    (h : ∀ c ∈ l, p c = false) : l.dropWhile p = l := by
  cases l with
  | nil => rfl
  | cons c t => simp [List.dropWhile_cons, h c (by simp)]

theorem jsTrim_of_base58 {addr : String} (h : isValidSolAddress addr = true) :
    jsTrim addr = addr := by
  have hall : ∀ c ∈ addr.data, isSpaceChar c = false := by
    simp only [isValidSolAddress, Bool.and_eq_true, List.all_eq_true] at h
    intro c hc
    exact isSpaceChar_of_base58 (h.2 c hc)
  unfold jsTrim
  rw [dropWhile_eq_self_of_none hall,
      dropWhile_eq_self_of_none (fun c hc => hall c (List.mem_reverse.mp hc)),
      List.reverse_reverse]

theorem valid_address_ne_empty {addr : String} (h : isValidSolAddress addr = true) :
    addr ≠ "" := by
  intro heq
  rw [heq] at h
  simp [isValidSolAddress] at h

/-! ## Claim theorems -/

/-- C1: `consumeBacktestCredits` rejects a non-positive amount with the
validation error and changes nothing; with a positive amount it fails,
changing nothing, when the account is absent or its balance is below the
amount; otherwise the one conditional update debits exactly the amount
and prepends the history entry.  Consequently, for any sequence of
debits against one account, the final balance equals the initial balance
minus the sum of the amounts of the calls that reported success, and a
balance that starts non-negative is never observed negative. -/
theorem spec_c1_debit :
    (∀ (s : Store) (uid : String) (amt : Int) (coin strategy : String) (now : Nat),
       amt ≤ 0 →
         consumeBacktestCredits s uid amt coin strategy now
           = .error (.msg "Amount must be > 0") ∧
         applyOp s (.consume uid amt coin strategy now) = s) ∧
    (∀ (s : Store) (uid : String) (amt : Int) (coin strategy : String) (now : Nat),
       WF s → ¬ amt ≤ 0 → s.find? (fun a => a.clerkId == uid) = none →
         consumeBacktestCredits s uid amt coin strategy now
           = .error (.msg "User not found or not enough credits") ∧
         applyOp s (.consume uid amt coin strategy now) = s) ∧
    (∀ (s : Store) (uid : String) (amt : Int) (coin strategy : String) (now : Nat)
       (a : Account),
       WF s → ¬ amt ≤ 0 → s.find? (fun x => x.clerkId == uid) = some a →
       a.credits < amt →
         consumeBacktestCredits s uid amt coin strategy now
           = .error (.msg "User not found or not enough credits") ∧
         applyOp s (.consume uid amt coin strategy now) = s) ∧
    (∀ (s : Store) (uid : String) (amt : Int) (coin strategy : String) (now : Nat)
       (a : Account),
       WF s → ¬ amt ≤ 0 → s.find? (fun x => x.clerkId == uid) = some a →
       amt ≤ a.credits →
         ∃ u s1, consumeBacktestCredits s uid amt coin strategy now = .ok (u, s1) ∧
           u.credits = a.credits - amt ∧
           u.creditHistory = (consumeEntry amt coin strategy now :: a.creditHistory).take 50 ∧
           s1.find? (fun x => x.clerkId == uid) = some u) ∧
    (∀ (s : Store) (uid : String) (rs : List DebitReq), WF s →
       creditsOf (runDebits uid s rs).1 uid
         = creditsOf s uid - successSum rs (runDebits uid s rs).2) ∧
    (∀ (s : Store) (uid : String) (rs : List DebitReq) (n : Nat), WF s →
       0 ≤ creditsOf s uid → 0 ≤ creditsOf (runDebits uid s (rs.take n)).1 uid) := by
  refine ⟨?_, ?_, ?_, ?_, ?_, ?_⟩
  · intro s uid amt coin strategy now hle
    constructor
    · unfold consumeBacktestCredits
      rw [if_pos hle]
    · simp only [applyOp]
      unfold consumeBacktestCredits
      rw [if_pos hle]
      rfl
  · intro s uid amt coin strategy now hWF hgt hfind
    constructor
    · rw [consume_spec hWF, if_neg hgt, hfind]
    · simp only [applyOp]
      rw [consume_spec hWF, if_neg hgt, hfind]
      rfl
  · intro s uid amt coin strategy now a hWF hgt hfind hlt
    have hcc : ¬ amt ≤ a.credits := by omega
    constructor
    · rw [consume_spec hWF, if_neg hgt, hfind]
      simp [hcc]
    · simp only [applyOp]
      rw [consume_spec hWF, if_neg hgt, hfind]
      simp [hcc, exceptStore]
  · intro s uid amt coin strategy now a hWF hgt hfind hcred
    have heq : consumeBacktestCredits s uid amt coin strategy now =
        .ok (consumeUpd amt coin strategy now a,
             replaceFirst (consumePred uid amt) (consumeUpd amt coin strategy now) s) := by
      rw [consume_spec hWF, if_neg hgt, hfind]
      simp [hcred]
    obtain ⟨a2, hfind2, -, -, -, hfindS1, -, -⟩ := consume_ok_spec hWF heq
    rw [hfind] at hfind2
    injection hfind2 with h2
    subst h2
    exact ⟨_, _, heq, rfl, rfl, hfindS1⟩
  · exact fun s uid rs hWF => runDebits_credits rs s hWF
  · exact fun s uid rs n hWF h0 => runDebits_nonneg (rs.take n) s hWF h0

/-- C1 witness: the theorem applied at concrete stores and requests. -/
theorem spec_c1_debit_witness :
    consumeBacktestCredits wStore1 "u1" 0 "BTC" "sma" 0
      = .error (.msg "Amount must be > 0") ∧
    consumeBacktestCredits wStore1 "zz" 3 "BTC" "sma" 0
      = .error (.msg "User not found or not enough credits") ∧
    creditsOf (runDebits "u1" wStore1 wReqs1).1 "u1"
      = creditsOf wStore1 "u1" - successSum wReqs1 (runDebits "u1" wStore1 wReqs1).2 ∧
    0 ≤ creditsOf (runDebits "u1" wStore1 (wReqs1.take 1)).1 "u1" :=
  ⟨(spec_c1_debit.1 wStore1 "u1" 0 "BTC" "sma" 0 (by decide)).1,
   (spec_c1_debit.2.1 wStore1 "zz" 3 "BTC" "sma" 0 (by decide) (by decide) (by decide)).1,
   spec_c1_debit.2.2.2.2.1 wStore1 "u1" wReqs1 (by decide),
   spec_c1_debit.2.2.2.2.2 wStore1 "u1" wReqs1 1 (by decide) (by decide)⟩

/-- C2 counterexample: the claim quantifies over every call of the
exported operations, but `createUser` applies `credits: user.credits ??
undefined` with no lower bound (neither the action nor the schema checks
a minimum), so a single `createUser` call with an explicit negative
initial-credits value reaches a state holding an account with negative
credits. -/
theorem spec_c2_counterexample :
    ¬ ∀ a ∈ runOps [Op.create cexCreateInput], 0 ≤ a.credits := by
  decide

/-- C2 amended: in every state reachable through the exported operations
in which each `createUser` call supplies a non-negative initial-credits
value or omits it, every account's credits are non-negative; and a
`createUser` insert that omits the credits field applies the schema
default 10. -/
theorem spec_c2_amended :
    (∀ ops : List Op, (∀ op ∈ ops, opCreditsSafe op = true) →
       ∀ a ∈ runOps ops, 0 ≤ a.credits) ∧
    (∀ (s : Store) (inp : CreateUserInput) (u : Account) (s1 : Store),
       s.find? (fun x => x.clerkId == inp.clerkId) = none → inp.credits = none →
       createUser s inp = .ok (u, s1) → u.credits = 10) := by
  constructor
  · intro ops hops
    exact creditsInv_foldl ops [] (fun a ha => by simp at ha) hops
  · intro s inp u s1 hfind hnone h
    obtain ⟨-, -, hcase⟩ := createUser_ok_inv h
    rcases hcase with ⟨a, hfind2, -, -⟩ | ⟨-, hu, -⟩
    · rw [hfind] at hfind2
      cases hfind2
    · rw [hu]
      simp [freshAccount, hnone]

/-- C2 amended witness: the invariant at a concrete safe trace, and the
default balance of a concrete insert. -/
theorem spec_c2_amended_witness :
    (∀ a ∈ runOps [Op.create wInp6, Op.add "u1" 5], 0 ≤ a.credits) ∧
    (freshAccount wInp6).credits = 10 :=
  ⟨spec_c2_amended.1 [Op.create wInp6, Op.add "u1" 5] (by decide),
   spec_c2_amended.2 [] wInp6 (freshAccount wInp6) [freshAccount wInp6]
     (by decide) (by decide) (by decide)⟩

/-- C3: in every reachable state every history is at most 50 entries
long; a successful debit prepends its entry at position 0 and trims to
the 50 most recent; and after 51 successful debits the history holds
exactly the entries of the 50 most recent ones, newest first, the oldest
silently dropped. -/
theorem spec_c3_history :
    (∀ ops : List Op, ∀ a ∈ runOps ops, a.creditHistory.length ≤ 50) ∧
    (∀ (s : Store) (uid : String) (amt : Int) (coin strategy : String) (now : Nat)
       (u : Account) (s1 : Store), WF s →
       consumeBacktestCredits s uid amt coin strategy now = .ok (u, s1) →
       ∃ a, s.find? (fun x => x.clerkId == uid) = some a ∧
         u.creditHistory = (consumeEntry amt coin strategy now :: a.creditHistory).take 50 ∧
         s1.find? (fun x => x.clerkId == uid) = some u) ∧
    (∀ (s : Store) (uid : String) (rs : List DebitReq), WF s →
       rs.length = 51 → (historyOf s uid).length ≤ 50 →
       (runDebits uid s rs).2.all id = true →
       historyOf (runDebits uid s rs).1 uid = ((rs.drop 1).map entryOf).reverse) := by
  refine ⟨?_, ?_, ?_⟩
  · intro ops
    exact historyInv_foldl ops [] (fun a ha => by simp at ha)
  · intro s uid amt coin strategy now u s1 hWF h
    obtain ⟨a, hfind, -, -, hu, hfindS1, -, -⟩ := consume_ok_spec hWF h
    refine ⟨a, hfind, ?_, hfindS1⟩
    rw [hu]
    rfl
  · intro s uid rs hWF hlen hh0 hall
    cases rs with
    | nil => simp at hlen
    | cons r0 rrest =>
      have hlr : rrest.length = 50 := by simpa using hlen
      rw [runDebits_history (r0 :: rrest) s hWF hall, foldl_prepend_take _ _ hh0,
          List.map_cons, List.reverse_cons, List.append_assoc,
          List.take_append_of_le_length (by simp [hlr]),
          List.take_of_length_le (by simp [hlr])]
      simp

/-- C3 witness: the trim shape on a concrete debit, and the 51-debit
run retaining exactly the 50 most recent entries. -/
theorem spec_c3_history_witness :
    (∀ a ∈ runOps [Op.create wInp6, Op.consume "u1" 2 "BTC" "sma" 0],
       a.creditHistory.length ≤ 50) ∧
    historyOf (runDebits "u1" wStore3 wReqs3).1 "u1"
      = ((wReqs3.drop 1).map entryOf).reverse :=
  ⟨spec_c3_history.1 [Op.create wInp6, Op.consume "u1" 2 "BTC" "sma" 0],
   spec_c3_history.2.2 wStore3 "u1" wReqs3 (by decide) (by decide) (by decide) (by decide)⟩

/-- C4: `setUsername` rejects any input whose trimmed form fails the
3-20 word-character format, rejects every casing of a reserved word,
fails with the "taken" conflict when another account holds the name
case-insensitively, and otherwise atomically sets both `username` (the
trimmed input as given) and `usernameLower` on the caller's account,
leaving every other account untouched. -/
theorem spec_c4_setUsername :
    (∀ (s : Store) (cid raw : String), usernameOk (jsTrim raw) = false →
       setUsername s cid raw
         = .error (.msg "Username must be 3–20 chars (letters, numbers, underscore).")) ∧
    (∀ (s : Store) (cid raw : String), usernameOk (jsTrim raw) = true →
       RESERVED.contains (jsLower (jsTrim raw)) = true →
       setUsername s cid raw = .error (.msg "That username is reserved.")) ∧
    (∀ (s : Store) (cid raw : String) (a : Account),
       s.find? (fun x => x.clerkId == cid) = some a →
       usernameOk (jsTrim raw) = true →
       RESERVED.contains (jsLower (jsTrim raw)) = false →
       usernameTaken s cid (jsLower (jsTrim raw)) = true →
       setUsername s cid raw = .error (.msg "That username is taken.")) ∧
    (∀ (s : Store) (cid raw : String) (a : Account),
       s.find? (fun x => x.clerkId == cid) = some a →
       usernameOk (jsTrim raw) = true →
       RESERVED.contains (jsLower (jsTrim raw)) = false →
       usernameTaken s cid (jsLower (jsTrim raw)) = false →
       ∃ u s1, setUsername s cid raw = .ok (u, s1) ∧
         u.username = some (jsTrim raw) ∧
         u.usernameLower = some (jsLower (jsTrim raw)) ∧
         s1.find? (fun x => x.clerkId == cid) = some u ∧
         ∀ b ∈ s1, b = u ∨ b ∈ s) := by
  refine ⟨?_, ?_, ?_, ?_⟩
  · intro s cid raw hfmt
    simp [setUsername, hfmt]
  · intro s cid raw hfmt hres
    have hresm : jsLower (jsTrim raw) ∈ RESERVED := by simpa using hres
    simp [setUsername, hfmt, hresm]
  · intro s cid raw a hfind hfmt hres htaken
    have hresm : jsLower (jsTrim raw) ∉ RESERVED := by simpa using hres
    simp [setUsername, hfmt, hresm, hfind, htaken]
  · intro s cid raw a hfind hfmt hres htaken
    have hresm : jsLower (jsTrim raw) ∉ RESERVED := by simpa using hres
    refine ⟨{ a with username := some (jsTrim raw),
                     usernameLower := some (jsLower (jsTrim raw)) },
            replaceFirst (fun x => x.clerkId == cid)
              (fun x => { x with username := some (jsTrim raw),
                                 usernameLower := some (jsLower (jsTrim raw)) }) s,
            ?_, rfl, rfl, ?_, ?_⟩
    · simp [setUsername, hfmt, hresm, hfind, htaken]
    · exact @find?_replaceFirst_self (fun x => x.clerkId == cid)
        (fun x => { x with username := some (jsTrim raw),
                           usernameLower := some (jsLower (jsTrim raw)) })
        (fun x hx => hx) s a hfind
    · intro b hb
      exact mem_replaceFirst_strong hfind hb

/-- C4 witness: too-short, reserved, case-insensitive conflict and a
successful atomic set, at concrete stores. -/
theorem spec_c4_setUsername_witness :
    setUsername wStore4 "u2" "ab"
      = .error (.msg "Username must be 3–20 chars (letters, numbers, underscore).") ∧
    setUsername wStore4 "u2" "Admin" = .error (.msg "That username is reserved.") ∧
    setUsername wStore4 "u2" "VALIDUSER123" = .error (.msg "That username is taken.") ∧
    (setUsername wStore4 "u2" "newName_9").isOk = true := by
  refine ⟨spec_c4_setUsername.1 wStore4 "u2" "ab" (by decide),
          spec_c4_setUsername.2.1 wStore4 "u2" "Admin" (by decide) (by decide),
          spec_c4_setUsername.2.2.1 wStore4 "u2" "VALIDUSER123" wAcct4b
            (by decide) (by decide) (by decide) (by decide), ?_⟩
  obtain ⟨u, s1, heq, -, -, -, -⟩ :=
    spec_c4_setUsername.2.2.2 wStore4 "u2" "newName_9" wAcct4b
      (by decide) (by decide) (by decide) (by decide)
  rw [heq]
  rfl

/-- C5: a valid 43-44-character base58 address held by no other account
is accepted and stored; an address held by another account is rejected
with the "already connected" conflict; `clearSolanaWallet` resets the
wallet to the empty string, which no valid address equals, and succeeds
with no uniqueness probe whatever other accounts hold; and once the
holding account clears its wallet, a second account can claim the same
address. -/
theorem spec_c5_wallet :
    (∀ addr : String, isValidSolAddress addr = true → addr ≠ "") ∧
    (∀ (s : Store) (cid raw : String) (a : Account),
       s.find? (fun x => x.clerkId == cid) = some a →
       isValidSolAddress (jsTrim raw) = true →
       walletTaken s cid (jsTrim raw) = false →
       ∃ u s1, setSolanaWallet s cid raw = .ok (u, s1) ∧
         u.solanaWallet = jsTrim raw ∧
         s1.find? (fun x => x.clerkId == cid) = some u) ∧
    (∀ (s : Store) (cid raw : String) (a : Account),
       s.find? (fun x => x.clerkId == cid) = some a →
       isValidSolAddress (jsTrim raw) = true →
       walletTaken s cid (jsTrim raw) = true →
       setSolanaWallet s cid raw
         = .error (.msg "That wallet is already connected by another user.")) ∧
    (∀ (s : Store) (cid : String) (a : Account),
       s.find? (fun x => x.clerkId == cid) = some a →
       ∃ u s1, clearSolanaWallet s cid = .ok (u, s1) ∧ u.solanaWallet = "" ∧
         s1.find? (fun x => x.clerkId == cid) = some u) ∧
    (∀ (s : Store) (c1 c2 addr : String) (a1 a2 : Account),
       WF s →
       s.find? (fun x => x.clerkId == c1) = some a1 →
       s.find? (fun x => x.clerkId == c2) = some a2 →
       c1 ≠ c2 → a1.solanaWallet = addr → isValidSolAddress addr = true →
       (∀ b ∈ s, b.solanaWallet = addr → b.clerkId = c1) →
       setSolanaWallet s c2 addr
         = .error (.msg "That wallet is already connected by another user.") ∧
       (∀ (u1 : Account) (s1 : Store), clearSolanaWallet s c1 = .ok (u1, s1) →
          ∃ u2 s2, setSolanaWallet s1 c2 addr = .ok (u2, s2) ∧
            u2.solanaWallet = addr)) := by
  refine ⟨?_, ?_, ?_, ?_, ?_⟩
  · exact fun addr h => valid_address_ne_empty h
  · intro s cid raw a hfind hvalid htaken
    refine ⟨{ a with solanaWallet := jsTrim raw },
            replaceFirst (fun x => x.clerkId == cid)
              (fun x => { x with solanaWallet := jsTrim raw }) s, ?_, rfl, ?_⟩
    · simp [setSolanaWallet, hvalid, hfind, htaken]
    · exact @find?_replaceFirst_self (fun x => x.clerkId == cid)
        (fun x => { x with solanaWallet := jsTrim raw }) (fun x hx => hx) s a hfind
  · intro s cid raw a hfind hvalid htaken
    simp [setSolanaWallet, hvalid, hfind, htaken]
  · intro s cid a hfind
    refine ⟨{ a with solanaWallet := "" },
            replaceFirst (fun x => x.clerkId == cid)
              (fun x => { x with solanaWallet := "" }) s, ?_, rfl, ?_⟩
    · simp [clearSolanaWallet, hfind]
    · exact @find?_replaceFirst_self (fun x => x.clerkId == cid)
        (fun x => { x with solanaWallet := "" }) (fun x hx => hx) s a hfind
  · intro s c1 c2 addr a1 a2 hWF hfind1 hfind2 hne hw1 hvalid honly
    have htrim : jsTrim addr = addr := jsTrim_of_base58 hvalid
    have hne0 : addr ≠ "" := valid_address_ne_empty hvalid
    have hmem1 : a1 ∈ s := List.mem_of_find?_eq_some hfind1
    have hc1 : a1.clerkId = c1 := by
      have h := List.find?_some hfind1
      simpa using h
    have htaken : walletTaken s c2 addr = true := by
      unfold walletTaken
      rw [List.any_eq_true]
      refine ⟨a1, hmem1, ?_⟩
      simp [bne, hc1, hw1, hne]
    constructor
    · have hv2 : isValidSolAddress (jsTrim addr) = true := by rw [htrim]; exact hvalid
      have ht2 : walletTaken s c2 (jsTrim addr) = true := by rw [htrim]; exact htaken
      simp only [setSolanaWallet, hv2, Bool.not_true, Bool.false_eq_true, if_false]
      rw [htrim, hfind2]
      simp [htaken]
    · intro u1 s1 hclear
      obtain ⟨a1b, hfind1b, hu1, hs1⟩ := clearSolanaWallet_ok_inv hclear
      rw [hfind1] at hfind1b
      injection hfind1b with hb
      subst hb
      have hexcl : ∀ x : Account, (x.clerkId == c1) = true →
          ((x.clerkId == c2) = false ∧
           (({ x with solanaWallet := "" } : Account).clerkId == c2) = false) := by
        intro x hx
        have hxc : x.clerkId = c1 := by simpa using hx
        constructor <;> simp [hxc, hne]
      have hfind2b : s1.find? (fun x => x.clerkId == c2) = some a2 := by
        rw [hs1, find?_replaceFirst_excl hexcl s, hfind2]
      have htakenb : walletTaken s1 c2 addr = false := by
        rw [hs1]
        exact walletTaken_clear_false hWF hne0 honly
      refine ⟨{ a2 with solanaWallet := addr },
              replaceFirst (fun x => x.clerkId == c2)
                (fun x => { x with solanaWallet := addr }) s1, ?_, rfl⟩
      have hv2 : isValidSolAddress (jsTrim addr) = true := by rw [htrim]; exact hvalid
      simp only [setSolanaWallet, hv2, Bool.not_true, Bool.false_eq_true, if_false]
      rw [htrim, hfind2b]
      simp [htakenb]

/-- C5 witness: the conflict and the clear-then-reclaim flow at a
concrete pair of accounts and a concrete 44-character address. -/
theorem spec_c5_wallet_witness :
    wAddr ≠ "" ∧
    setSolanaWallet wStore5 "u2" wAddr
      = .error (.msg "That wallet is already connected by another user.") ∧
    (setSolanaWallet wCleared "u2" wAddr).isOk = true := by
  refine ⟨spec_c5_wallet.1 wAddr (by decide), ?_, ?_⟩
  · exact (spec_c5_wallet.2.2.2.2 wStore5 "u1" "u2" wAddr wAcct5a wAcct5b
      (by decide) (by decide) (by decide) (by decide) (by decide) (by decide)
      (by decide)).1
  · obtain ⟨u2, s2, heq, -⟩ :=
      (spec_c5_wallet.2.2.2.2 wStore5 "u1" "u2" wAddr wAcct5a wAcct5b
        (by decide) (by decide) (by decide) (by decide) (by decide) (by decide)
        (by decide)).2 { wAcct5a with solanaWallet := "" } wCleared (by decide)
    rw [heq]
    rfl

/-- C6: `createUser` is idempotent — a second call with identical input
returns the same account and leaves the store exactly as after the
first call, with exactly one account under that `clerkId`; and when the
account already exists, the call rewrites only `email`, `firstName`,
`lastName` (plus `username`/`usernameLower` when a username is
supplied), leaving `subscriptionTier`, `customerId`, `credits`,
`topCoins`, `creditHistory` and `solanaWallet` untouched, and touching
no other account. -/
theorem spec_c6_createUser_idempotent :
    (∀ (s : Store) (inp : CreateUserInput) (u : Account) (s1 : Store),
       WF s → createUser s inp = .ok (u, s1) →
       createUser s1 inp = .ok (u, s1) ∧
       s1.countP (fun b => b.clerkId == inp.clerkId) = 1 ∧ WF s1) ∧
    (∀ (s : Store) (inp : CreateUserInput) (a u : Account) (s1 : Store),
       s.find? (fun x => x.clerkId == inp.clerkId) = some a →
       createUser s inp = .ok (u, s1) →
       u.subscriptionTier = a.subscriptionTier ∧ u.customerId = a.customerId ∧
       u.credits = a.credits ∧ u.topCoins = a.topCoins ∧
       u.creditHistory = a.creditHistory ∧ u.solanaWallet = a.solanaWallet ∧
       u.email = normEmail inp.email ∧ u.firstName = inp.firstName.getD "" ∧
       u.lastName = inp.lastName.getD "" ∧
       (trimmedUsername inp.username = none →
          u.username = a.username ∧ u.usernameLower = a.usernameLower) ∧
       (∀ un, trimmedUsername inp.username = some un →
          u.username = some un ∧ u.usernameLower = some (jsLower un)) ∧
       (∀ b ∈ s1, b = u ∨ b ∈ s)) := by
  constructor
  · exact fun s inp u s1 hWF h => createUser_idem hWF h
  · intro s inp a u s1 hfind h
    obtain ⟨-, -, hcase⟩ := createUser_ok_inv h
    rcases hcase with ⟨a2, hfind2, hu, hs1⟩ | ⟨hfind2, -, -⟩
    · rw [hfind] at hfind2
      injection hfind2 with h2
      subst h2
      subst hu
      subst hs1
      refine ⟨?_, ?_, ?_, ?_, ?_, ?_, ?_, ?_, ?_, ?_, ?_, ?_⟩
      · cases htu : trimmedUsername inp.username <;> simp [applyProfileSet, htu]
      · cases htu : trimmedUsername inp.username <;> simp [applyProfileSet, htu]
      · cases htu : trimmedUsername inp.username <;> simp [applyProfileSet, htu]
      · cases htu : trimmedUsername inp.username <;> simp [applyProfileSet, htu]
      · cases htu : trimmedUsername inp.username <;> simp [applyProfileSet, htu]
      · cases htu : trimmedUsername inp.username <;> simp [applyProfileSet, htu]
      · cases htu : trimmedUsername inp.username <;> simp [applyProfileSet, htu]
      · cases htu : trimmedUsername inp.username <;> simp [applyProfileSet, htu]
      · cases htu : trimmedUsername inp.username <;> simp [applyProfileSet, htu]
      · intro hnone
        simp [applyProfileSet, hnone]
      · intro un hsome
        simp [applyProfileSet, hsome]
      · intro b hb
        exact mem_replaceFirst_strong hfind hb
    · rw [hfind] at hfind2
      cases hfind2

/-- C6 witness: replaying a concrete creation is a no-op, and a concrete
re-sync of an existing account preserves billing and credits. -/
theorem spec_c6_createUser_idempotent_witness :
    createUser [freshAccount wInp6] wInp6 = .ok (freshAccount wInp6, [freshAccount wInp6]) ∧
    List.countP (fun b => b.clerkId == wInp6.clerkId) [freshAccount wInp6] = 1 ∧
    (applyProfileSet wInp6b wAcct6).credits = wAcct6.credits ∧
    (applyProfileSet wInp6b wAcct6).customerId = wAcct6.customerId ∧
    (applyProfileSet wInp6b wAcct6).subscriptionTier = wAcct6.subscriptionTier := by
  have hA := spec_c6_createUser_idempotent.1 [] wInp6 (freshAccount wInp6)
    [freshAccount wInp6] (by decide) (by decide)
  have hB := spec_c6_createUser_idempotent.2 [wAcct6] wInp6b wAcct6
    (applyProfileSet wInp6b wAcct6) [applyProfileSet wInp6b wAcct6]
    (by decide) (by decide)
  exact ⟨hA.1, hA.2.1, hB.2.2.1, hB.2.1, hB.1⟩

/-- C7: when the webhook payload's username collides case-insensitively
with another account, the handler retries the upsert with the username
omitted, so the event still succeeds and syncs email, firstName and
lastName; and only a duplicate-key error on the username indexes
triggers that retry — any other failure propagates unchanged. -/
theorem spec_c7_webhook_username_retry :
    (∀ (s : Store) (cid em fn ln un : String),
       emailTaken s cid (normEmail em) = false →
       usernameSetTaken s (clerkPayloadWithUsername cid em fn ln
         (handlerUsername (some un))) = true →
       handleIdentityUpsert s cid em fn ln (some un)
         = createUser s (clerkBasePayload cid em fn ln) ∧
       ∃ u s1, handleIdentityUpsert s cid em fn ln (some un) = .ok (u, s1) ∧
         u.email = normEmail em ∧ u.firstName = fn ∧ u.lastName = ln) ∧
    (∀ (s : Store) (cid em fn ln : String) (username : Option String) (e : Err),
       createUser s (clerkPayloadWithUsername cid em fn ln (handlerUsername username))
         = .error e →
       usernameDupErr e = false →
       handleIdentityUpsert s cid em fn ln username = .error e) := by
  constructor
  · intro s cid em fn ln un hemail htaken
    have hdup : createUser s (clerkPayloadWithUsername cid em fn ln
        (handlerUsername (some un))) = .error (.dupKey "usernameLower") :=
      createUser_dup_username hemail htaken
    have hhandler : handleIdentityUpsert s cid em fn ln (some un)
        = createUser s (clerkBasePayload cid em fn ln) := by
      unfold handleIdentityUpsert
      rw [hdup]
      rfl
    refine ⟨hhandler, ?_⟩
    obtain ⟨u, s1, hok, he, hf, hl⟩ :=
      @createUser_no_username_ok s (clerkBasePayload cid em fn ln) rfl hemail
    exact ⟨u, s1, by rw [hhandler]; exact hok, he, by simpa using hf, by simpa using hl⟩
  · intro s cid em fn ln username e herr hndup
    unfold handleIdentityUpsert
    rw [herr]
    simp [hndup]

/-- C7 witness: a concrete colliding event still succeeds through the
username-free retry. -/
theorem spec_c7_webhook_username_retry_witness :
    handleIdentityUpsert wStore7 "u2" "n@e.w" "A" "B" (some "Bob123")
      = createUser wStore7 (clerkBasePayload "u2" "n@e.w" "A" "B") ∧
    (handleIdentityUpsert wStore7 "u2" "n@e.w" "A" "B" (some "Bob123")).isOk = true := by
  have h := spec_c7_webhook_username_retry.1 wStore7 "u2" "n@e.w" "A" "B" "Bob123"
    (by decide) (by decide)
  refine ⟨h.1, ?_⟩
  obtain ⟨u, s1, hok, -, -, -⟩ := h.2
  rw [hok]
  rfl

/-- C8 counterexample: the availability probe scans all accounts, the
caller's own included, while `setUsername` only conflicts with other
accounts — so an account re-setting the username it already holds is
told "taken" by `isUsernameAvailable` even though `setUsername`
succeeds, refuting the claimed equivalence. -/
theorem spec_c8_counterexample :
    (isUsernameAvailable wStore8 "bob123").ok = false ∧
    (setUsername wStore8 "u1" "bob123").isOk = true := by
  decide

/-- C8 amended: `isUsernameAvailable` mutates nothing (it is a pure
read of the store), and for an account present in the store that does
not itself already hold the requested name, its verdict coincides
exactly with whether `setUsername` for that account would succeed: same
format rule, same reserved list checked case-insensitively, same
case-insensitive taken check. -/
theorem spec_c8_amended :
    ∀ (s : Store) (cid raw : String) (a : Account), WF s →
      s.find? (fun x => x.clerkId == cid) = some a →
      a.usernameLower ≠ some (jsLower (jsTrim raw)) →
      ((isUsernameAvailable s raw).ok = true ↔ ∃ r, setUsername s cid raw = .ok r) := by
  intro s cid raw a hWF hfind hown
  by_cases hfmt : usernameOk (jsTrim raw) = true
  · by_cases hres : RESERVED.contains (jsLower (jsTrim raw)) = true
    · have hresm : jsLower (jsTrim raw) ∈ RESERVED := by simpa using hres
      constructor
      · intro hok
        exfalso
        simp [isUsernameAvailable, hfmt, hresm] at hok
      · rintro ⟨r, hr⟩
        exfalso
        have hinv := setUsername_ok_inv hr
        rw [hinv.2.1] at hres
        cases hres
    · have hresm : jsLower (jsTrim raw) ∉ RESERVED := by simpa using hres
      by_cases hany : s.any (fun b => b.usernameLower == some (jsLower (jsTrim raw))) = true
      · have htaken : usernameTaken s cid (jsLower (jsTrim raw)) = true := by
          obtain ⟨b, hb, hbl⟩ := List.any_eq_true.mp hany
          have hbl2 : b.usernameLower = some (jsLower (jsTrim raw)) := by simpa using hbl
          by_cases hbc : (b.clerkId == cid) = true
          · exfalso
            have hqa := List.find?_some hfind
            have hba : a = b := mem_unique_of_countP (countP_clerkId_le_one hWF cid)
              (List.mem_of_find?_eq_some hfind) hqa hb hbc
            rw [← hba] at hbl2
            exact hown hbl2
          · unfold usernameTaken
            rw [List.any_eq_true]
            refine ⟨b, hb, ?_⟩
            have hbc2 : (b.clerkId == cid) = false := by simpa using hbc
            simp [bne, hbc2, hbl2]
        constructor
        · intro hok
          exfalso
          simp [isUsernameAvailable, hfmt, hresm, hany] at hok
        · rintro ⟨r, hr⟩
          have hinv := setUsername_ok_inv hr
          have hf := hinv.2.2.1
          rw [hf] at htaken
          cases htaken
      · have hanyf : s.any (fun b => b.usernameLower == some (jsLower (jsTrim raw))) = false := by
          simpa using hany
        have htaken : usernameTaken s cid (jsLower (jsTrim raw)) = false := by
          by_contra hc
          have hc2 : usernameTaken s cid (jsLower (jsTrim raw)) = true := by simpa using hc
          obtain ⟨b, hb, hbp⟩ := List.any_eq_true.mp hc2
          have hx : s.any (fun b => b.usernameLower == some (jsLower (jsTrim raw))) = true := by
            rw [List.any_eq_true]
            refine ⟨b, hb, ?_⟩
            simp only [Bool.and_eq_true] at hbp
            exact hbp.2
          rw [hx] at hanyf
          cases hanyf
        constructor
        · intro _
          exact ⟨({ a with username := some (jsTrim raw),
                           usernameLower := some (jsLower (jsTrim raw)) },
                  replaceFirst (fun x => x.clerkId == cid)
                    (fun x => { x with username := some (jsTrim raw),
                                       usernameLower := some (jsLower (jsTrim raw)) }) s),
                 by simp [setUsername, hfmt, hresm, hfind, htaken]⟩
        · intro _
          simp [isUsernameAvailable, hfmt, hresm, hanyf]
  · have hfmtf : usernameOk (jsTrim raw) = false := by simpa using hfmt
    constructor
    · intro hok
      exfalso
      simp [isUsernameAvailable, hfmtf] at hok
    · rintro ⟨r, hr⟩
      have hinv := setUsername_ok_inv hr
      rw [hinv.1] at hfmtf
      cases hfmtf

/-- C8 amended witness: the equivalence at a concrete store, account and
fresh name. -/
theorem spec_c8_amended_witness :
    (isUsernameAvailable wStore4 "newName_9").ok = true ↔
      ∃ r, setUsername wStore4 "u2" "newName_9" = .ok r :=
  spec_c8_amended wStore4 "u2" "newName_9" wAcct4b (by decide) (by decide) (by decide)

/-- C9: in every run of `subscribe`, no checkout session is requested
before the billing-customer id has been persisted onto the account; and
when the price id is not a real plan, the flow aborts with an explicit
invalid-price error and never creates a checkout session. -/
theorem spec_c9_subscribe_order :
    (∀ (env : StripeEnv) (s : Store) (uid em pid : String),
       sessionPrecededByUpsert (subscribe env s uid em pid).2.2 = true) ∧
    (∀ (env : StripeEnv) (s : Store) (uid em pid : String),
       (uid == "") = false → (em == "") = false → (pid == "") = false →
       env.priceValid pid = false →
       (subscribe env s uid em pid).1
         = .error (.msg ("Failed to create subscription: Invalid price ID: " ++ pid)) ∧
       (subscribe env s uid em pid).2.2.any isCreateSession = false) := by
  constructor
  · intro env s uid em pid
    unfold subscribe
    by_cases h1 : (uid == "" || em == "" || pid == "") = true
    · simp [h1, sessionPrecededByUpsert]
    · have h1f : (uid == "" || em == "" || pid == "") = false := by simpa using h1
      simp only [h1f, Bool.false_eq_true, if_false]
      cases hec : env.existingCustomer em <;>
        by_cases hpv : env.priceValid pid = true <;>
          simp [hec, hpv, sessionPrecededByUpsert, isCreateSession, isDbUpsert]
  · intro env s uid em pid huid hem hpid hpv
    unfold subscribe
    have h1f : (uid == "" || em == "" || pid == "") = false := by simp [huid, hem, hpid]
    constructor
    · simp only [h1f, Bool.false_eq_true, if_false]
      cases hec : env.existingCustomer em <;> simp [hec, hpv]
    · simp only [h1f, Bool.false_eq_true, if_false]
      cases hec : env.existingCustomer em <;> simp [hec, hpv, isCreateSession]

/-- C9 witness: the ordering on a concrete valid run, and the abort on a
concrete invalid price id. -/
theorem spec_c9_subscribe_order_witness :
    sessionPrecededByUpsert (subscribe wEnv [] "u1" "e@x" "price_ok").2.2 = true ∧
    (subscribe wEnv [] "u1" "e@x" "price_bad").1
      = .error (.msg ("Failed to create subscription: Invalid price ID: " ++ "price_bad")) ∧
    (subscribe wEnv [] "u1" "e@x" "price_bad").2.2.any isCreateSession = false :=
  ⟨spec_c9_subscribe_order.1 wEnv [] "u1" "e@x" "price_ok",
   (spec_c9_subscribe_order.2 wEnv [] "u1" "e@x" "price_bad"
      (by decide) (by decide) (by decide) (by decide)).1,
   (spec_c9_subscribe_order.2 wEnv [] "u1" "e@x" "price_bad"
      (by decide) (by decide) (by decide) (by decide)).2⟩

/-- C10: when no account exists for the userId, `subscribe` does not
fail with a not-found error — its customerId write is an upsert that
appends a new document keyed by the clerkId, carrying only the billing
customerId plus schema defaults (email empty, no profile fields, tier
free, 10 credits, empty history, no wallet), bypassing the documented
creation path's email normalization; the call then returns the checkout
URL when the price is valid, or only the invalid-price error
otherwise. -/
theorem spec_c10_subscribe_upsert :
    ∀ (env : StripeEnv) (s : Store) (uid em pid : String),
      (uid == "") = false → (em == "") = false → (pid == "") = false →
      s.find? (fun b => b.clerkId == uid) = none →
      (subscribe env s uid em pid).2.1
        = s ++ [stripeFreshAccount uid (resolveCustomer env em)] ∧
      (stripeFreshAccount uid (resolveCustomer env em)).clerkId = uid ∧
      (stripeFreshAccount uid (resolveCustomer env em)).customerId = resolveCustomer env em ∧
      (stripeFreshAccount uid (resolveCustomer env em)).credits = 10 ∧
      (stripeFreshAccount uid (resolveCustomer env em)).subscriptionTier = "free" ∧
      (stripeFreshAccount uid (resolveCustomer env em)).email = "" ∧
      (stripeFreshAccount uid (resolveCustomer env em)).firstName = "" ∧
      (stripeFreshAccount uid (resolveCustomer env em)).username = none ∧
      (stripeFreshAccount uid (resolveCustomer env em)).solanaWallet = "" ∧
      (stripeFreshAccount uid (resolveCustomer env em)).creditHistory = [] ∧
      ((subscribe env s uid em pid).1 = .ok (env.sessionUrl pid) ∨
       (subscribe env s uid em pid).1
         = .error (.msg ("Failed to create subscription: Invalid price ID: " ++ pid))) := by
  intro env s uid em pid huid hem hpid hfind
  have h1f : (uid == "" || em == "" || pid == "") = false := by simp [huid, hem, hpid]
  have hstore : (subscribe env s uid em pid).2.1
      = s ++ [stripeFreshAccount uid (resolveCustomer env em)] := by
    unfold subscribe stripeUpsertCustomer
    simp only [h1f, Bool.false_eq_true, if_false]
    cases hec : env.existingCustomer em <;>
      by_cases hpv : env.priceValid pid = true <;>
        simp [hec, hpv, hfind, resolveCustomer]
  refine ⟨hstore, rfl, rfl, rfl, rfl, rfl, rfl, rfl, rfl, rfl, ?_⟩
  unfold subscribe
  simp only [h1f, Bool.false_eq_true, if_false]
  by_cases hpv : env.priceValid pid = true
  · left
    cases hec : env.existingCustomer em <;> simp [hec, hpv]
  · right
    have hpvf : env.priceValid pid = false := by simpa using hpv
    cases hec : env.existingCustomer em <;> simp [hec, hpvf]

/-- C10 witness: the upsert-insert and checkout result at a concrete
environment and empty store. -/
theorem spec_c10_subscribe_upsert_witness :
    (subscribe wEnv [] "u9" "mail@x" "price_ok").2.1
      = [] ++ [stripeFreshAccount "u9" (resolveCustomer wEnv "mail@x")] ∧
    (stripeFreshAccount "u9" (resolveCustomer wEnv "mail@x")).credits = 10 ∧
    ((subscribe wEnv [] "u9" "mail@x" "price_ok").1 = .ok (wEnv.sessionUrl "price_ok") ∨
     (subscribe wEnv [] "u9" "mail@x" "price_ok").1
       = .error (.msg ("Failed to create subscription: Invalid price ID: " ++ "price_ok"))) := by
  have h := spec_c10_subscribe_upsert wEnv [] "u9" "mail@x" "price_ok"
    (by decide) (by decide) (by decide) (by decide)
  exact ⟨h.1, h.2.2.2.1, h.2.2.2.2.2.2.2.2.2.2⟩

end Seek
